import Mathlib

/-!
# Verification of `litestar/typing.py` (FieldDefinition)

A shallow embedding of litestar's runtime type-introspection module
`litestar/typing.py`. Python type annotations are modelled by the inductive
`TypeAnn`, metadata objects attached via `Annotated[...]` by `MetaVal`, plain
Python values (defaults, constraint values) by `PyVal`, and kwarg-definition
objects (`KwargDefinition` / `ParameterKwarg` / `BodyKwarg` /
`DependencyKwarg` from `litestar.params`, which is outside the provided
sources) by `KD`.

Naming: the Python identifier family around the word `annotation` is rendered
as `ann` (`TypeAnn`, `unwrap_ann`, `FieldDefinition.from_ann`, field `ann`);
everything else keeps the source's names. Python dicts are modelled as
insertion-ordered association lists (`PyDict`) with Python's `dict.update`,
`dict.pop` and comprehension-filter semantics.

Helper functions that live in litestar modules not included in the sources
(`litestar.utils.typing`, `litestar.utils.predicates`, `litestar.params`)
are modelled from the specification and carry a doc comment starting with
`Modelled from the spec:`.

The value universe deliberately omits pydantic `FieldInfo` objects, pydantic
constrained-field classes and `AbstractDTOFactory` subclasses: those are
external-library values (pydantic / litestar DTO machinery), so the
corresponding isinstance branches of `_extract_metadata` never fire inside
the embedding.
-/

set_option maxHeartbeats 1000000

/-- The finite universe of plain Python classes used by the embedding,
covering the classes the module inspects (`str`, `bytes`, `NoneType`,
containers, the abstract container bases used by `is_subclass_of`, and
`ImmutableState`/`State` from `litestar.datastructures`). -/
inductive PyClass where
  | strC | bytesC | intC | boolC | floatC | noneC
  | listC | tupleC | dictC | setC
  | sequenceC | mappingC | collectionC | iterableC | callableC
  | immutableStateC | stateC
  | customC
  deriving DecidableEq, Repr

/-- The transitive-reflexive superclass list of each class; `issubclass a b`
is membership of `b` in `superclasses a`. `State` subclasses
`ImmutableState`; both are `Mapping`s. `bool` subclasses `int`. -/
def superclasses : PyClass → List PyClass
  | .strC => [.strC, .sequenceC, .collectionC, .iterableC]
  | .bytesC => [.bytesC, .sequenceC, .collectionC, .iterableC]
  | .intC => [.intC]
  | .boolC => [.boolC, .intC]
  | .floatC => [.floatC]
  | .noneC => [.noneC]
  | .listC => [.listC, .sequenceC, .collectionC, .iterableC]
  | .tupleC => [.tupleC, .sequenceC, .collectionC, .iterableC]
  | .dictC => [.dictC, .mappingC, .collectionC, .iterableC]
  | .setC => [.setC, .collectionC, .iterableC]
  | .sequenceC => [.sequenceC, .collectionC, .iterableC]
  | .mappingC => [.mappingC, .collectionC, .iterableC]
  | .collectionC => [.collectionC, .iterableC]
  | .iterableC => [.iterableC]
  | .callableC => [.callableC]
  | .immutableStateC => [.immutableStateC, .mappingC, .collectionC, .iterableC]
  | .stateC => [.stateC, .immutableStateC, .mappingC, .collectionC, .iterableC]
  | .customC => [.customC]

/-- Python `issubclass` restricted to the class universe. -/
def subclassB (a b : PyClass) : Bool :=
  (superclasses a).contains b

/-- Which kwarg-definition model class `_extract_metadata` selects:
`BodyKwarg` when the field is named `"data"`, else `ParameterKwarg`. -/
inductive KwargKind where
  | parameterK | bodyK
  deriving DecidableEq, Repr

/-- The `func` carried by an `annotated_types.Predicate` metadata object.
The four functions recognised by `_unpack_predicate` get constructors; any
other function is `other`. -/
inductive PredFunc where
  | islower | isupper | isascii | isdigit
  | other (nm : String)
  deriving DecidableEq, Repr

/-- Wrapper types removed by `unwrap_annotation`:
`Annotated`, `Required`, `NotRequired`. -/
inductive Wrapper where
  | annotatedW | requiredW | notRequiredW
  deriving DecidableEq, Repr

/-- Possible results of `get_origin`: the `Union` special form (covering both
`typing.Union` and `types.UnionType`, i.e. the members of litestar's
`UnionTypes`), `collections.abc.Callable`, the `Literal` special form, the
wrapper special forms, or a plain class such as `list`. -/
inductive GenOrigin where
  | unionO | callableO | literalO
  | annotatedO | requiredO | notRequiredO
  | cls (c : PyClass)
  deriving DecidableEq, Repr

mutual
/-- Plain Python values as they appear in this module: the `Empty` sentinel
(`litestar.types.Empty`), `None`, `Ellipsis`, numbers, strings, booleans,
lists, dicts, `Example(value=...)` objects (`litestar.openapi.spec.Example`)
and kwarg-definition objects. -/
inductive PyVal where
  | empty
  | pyNone
  | ellipsis
  | intVal (n : Int)
  | strVal (s : String)
  | boolVal (b : Bool)
  | listVal (l : List PyVal)
  | dictVal (d : List (String × PyVal))
  | exampleVal (v : PyVal)
  | kd (k : KD)

/-- Kwarg-definition objects from `litestar.params` (module not in the
sources). Modelled from the spec: a `KwargDefinition` dataclass
(`ParameterKwarg` or `BodyKwarg`) is identified by its kind together with
the dict of constructor kwargs it was built from (attribute access is lookup
in that dict, absent attributes keep their dataclass defaults: `default` is
`Empty`, `required` is `None`); `DependencyKwarg` carries its `default` and
`skip_validation`. -/
inductive KD where
  | kwarg (kind : KwargKind) (constraints : List (String × PyVal))
  | dependency (default : PyVal) (skip_validation : Bool)
end

/-- A Python dict with string keys, as an insertion-ordered association
list with unique keys. -/
abbrev PyDict := List (String × PyVal)

/-- Lookup in a dict (first matching key). -/
def dlookup (d : PyDict) (k : String) : Option PyVal :=
  match d with
  | [] => none
  | (k', v) :: rest => if k' = k then some v else dlookup rest k

/-- `d[k] = v` for a Python dict: overwrite in place if the key exists,
else append at the end (insertion order). -/
def dinsert (d : PyDict) (k : String) (v : PyVal) : PyDict :=
  match d with
  | [] => [(k, v)]
  | (k', v') :: rest =>
    if k' = k then (k', v) :: rest else (k', v') :: dinsert rest k v

/-- `d.update(e)` for Python dicts. -/
def dupdate (d e : PyDict) : PyDict :=
  e.foldl (fun acc kv => dinsert acc kv.1 kv.2) d

/-- Remove a key from a dict. -/
def dremove (d : PyDict) (k : String) : PyDict :=
  d.filter (fun kv => kv.1 ≠ k)

/-- `d.pop(k, None)`: the popped value (or `None`) and the remaining dict. -/
def dpop (d : PyDict) (k : String) : PyVal × PyDict :=
  ((dlookup d k).getD .pyNone, dremove d k)

/-- Whether a value is Python `None`. -/
def isNoneP : PyVal → Bool
  | .pyNone => true
  | _ => false

/-- Whether a value is the `Empty` sentinel. -/
def isEmptyP : PyVal → Bool
  | .empty => true
  | _ => false

/-- Whether a value is `Ellipsis`. -/
def isEllipsisP : PyVal → Bool
  | .ellipsis => true
  | _ => false

/-- Python truthiness of the modelled values. -/
def pyTruthy : PyVal → Bool
  | .empty => true
  | .pyNone => false
  | .ellipsis => true
  | .intVal n => n ≠ 0
  | .strVal s => s ≠ ""
  | .boolVal b => b
  | .listVal l => !l.isEmpty
  | .dictVal d => !d.isEmpty
  | .exampleVal _ => true
  | .kd _ => true

/-- Whether a value is a `KwargDefinition` or `DependencyKwarg` instance. -/
def isKdVal : PyVal → Bool
  | .kd _ => true
  | _ => false

/-- The `default` attribute of a kwarg definition: for a `KwargDefinition`
the `default` constructor kwarg (dataclass default `Empty` when absent);
for a `DependencyKwarg` its `default` field. -/
def KD.defaultVal : KD → PyVal
  | .kwarg _ cs => (dlookup cs "default").getD .empty
  | .dependency d _ => d

/-- The `required` attribute of a `ParameterKwarg` (`None` unless set to a
boolean at construction). -/
def KD.requiredAttr : KD → Option Bool
  | .kwarg _ cs =>
    match dlookup cs "required" with
    | some (.boolVal b) => some b
    | _ => none
  | .dependency _ _ => none

mutual
/-- Python type annotations as consumed by this module: plain classes,
`Any`, `AnyStr`, bare `TypeVar`s, forward references, generic aliases
(`origin[args...]`, covering `Union`, `Callable`, `Literal` and class
generics such as `list[int]`), the wrapper forms `Annotated` / `Required` /
`NotRequired`, and plain values sitting in annotation position (`Literal`
arguments, or the `Empty` sentinel passed where no annotation exists). -/
inductive TypeAnn where
  | cls (c : PyClass)
  | anyA
  | anyStr
  | typeVar (nm : String)
  | forwardRef (nm : String)
  | generic (origin : GenOrigin) (args : List TypeAnn)
  | annotated (base : TypeAnn) (metadata : List MetaVal)
  | requiredT (base : TypeAnn)
  | notRequiredT (base : TypeAnn)
  | litValue (v : PyVal)

/-- A metadata value stored in `Annotated[base, ...]`: a duck-typed
constraint object given by its attribute dict (e.g. `annotated_types.Ge`,
pydantic `FieldInfo`), an `annotated_types.Predicate`, a type used as
metadata (possibly itself `Annotated`), or a plain value (including
`KwargDefinition` / `DependencyKwarg` instances and `None`). -/
inductive MetaVal where
  | obj (attrs : List (String × PyVal))
  | predicate (f : PredFunc)
  | ty (t : TypeAnn)
  | val (v : PyVal)
end

/-- `getattr(value, name, None)` on a metadata value: attribute lookup on a
constraint object; predicates, types and plain values have none of the
attributes `_parse_metadata` asks for. -/
def mgetattr (v : MetaVal) (nm : String) : PyVal :=
  match v with
  | .obj attrs => (dlookup attrs nm).getD .pyNone
  | _ => .pyNone

/-- `getattr(value, name, fallback)` with an explicit fallback: the fallback
is used only when the attribute is absent (an attribute explicitly set to
`None` is returned as `None`). -/
def mgetattrD (v : MetaVal) (nm : String) (fallback : PyVal) : PyVal :=
  match v with
  | .obj attrs =>
    match dlookup attrs nm with
    | some x => x
    | none => fallback
  | _ => fallback

/-- Whether a metadata value is the value `None`
(the `if v is not None` filter in `_traverse_metadata`). -/
def isNoneMeta : MetaVal → Bool
  | .val .pyNone => true
  | _ => false

/-- Whether a metadata value is a `KwargDefinition` or `DependencyKwarg`
instance. -/
def isKdMeta : MetaVal → Bool
  | .val (.kd _) => true
  | _ => false

/-- `typing.get_origin` on the modelled annotations (after the
`typing`/`typing_extensions` special cases: `Annotated`, `Required` and
`NotRequired` aliases report their special form as origin). -/
def get_origin : TypeAnn → Option GenOrigin
  | .generic o _ => some o
  | .annotated _ _ => some .annotatedO
  | .requiredT _ => some .requiredO
  | .notRequiredT _ => some .notRequiredO
  | _ => none

/-- `typing.get_args` on the modelled annotations, restricted to the
non-wrapper forms it is applied to in this module (the `Annotated` case,
whose Python args mix the base type with metadata objects, is handled
separately where the source consults it: see `metaGetArgs` and
`rawArgsFirstKd`). -/
def get_args : TypeAnn → List TypeAnn
  | .generic _ args => args
  | _ => []

/-- Modelled from the spec: `litestar.utils.typing.unwrap_annotation`
(module not in the sources) — strips the wrapper types `Annotated`,
`Required` and `NotRequired` from the outside in, returning the unwrapped
annotation, the collected `Annotated` metadata (outermost first) and the
removed wrappers. -/
def unwrap_ann : TypeAnn → TypeAnn × List MetaVal × List Wrapper
  | .annotated base ms =>
    let r := unwrap_ann base
    (r.1, ms ++ r.2.1, .annotatedW :: r.2.2)
  | .requiredT base =>
    let r := unwrap_ann base
    (r.1, r.2.1, .requiredW :: r.2.2)
  | .notRequiredT base =>
    let r := unwrap_ann base
    (r.1, r.2.1, .notRequiredW :: r.2.2)
  | t => (t, [], [])

/-- Modelled from the spec: `litestar.utils.predicates.is_annotated_type` —
whether a metadata value is itself an `Annotated[...]` alias (annotated
values can be nested inside other annotated values). -/
def is_annotated_type : MetaVal → Bool
  | .ty (.annotated _ _) => true
  | _ => false

/-- Modelled from the spec: `litestar.utils.predicates.is_class_and_subclass`
— whether the annotation is a class and a subclass of one of the given
classes (`issubclass` with a tuple second argument succeeds on any member). -/
def is_class_and_subclass (t : TypeAnn) (cl : List PyClass) : Bool :=
  match t with
  | .cls c => cl.any (fun d => subclassB c d)
  | _ => false

/-- `is_class_and_subclass` applied to an origin (`is_subclass_of` passes
`self.origin` to it): `collections.abc.Callable` is a class; the special
forms `Union` / `Literal` / `Annotated` / `Required` / `NotRequired` are
not. -/
def origin_is_class_and_subclass (o : GenOrigin) (cl : List PyClass) : Bool :=
  match o with
  | .cls c => cl.any (fun d => subclassB c d)
  | .callableO => cl.any (fun d => subclassB .callableC d)
  | _ => false

/-- Modelled from the spec:
`litestar.utils.predicates.is_non_string_sequence` — whether the annotation
(looking through `Annotated`) is a `Sequence` container type other than
`str`/`bytes` (list, tuple etc.). -/
def is_non_string_sequence (t : TypeAnn) : Bool :=
  let u := (unwrap_ann t).1
  match get_origin u, u with
  | some (.cls c), _ =>
    subclassB c .sequenceC && !(subclassB c .strC) && !(subclassB c .bytesC)
  | none, .cls c =>
    subclassB c .sequenceC && !(subclassB c .strC) && !(subclassB c .bytesC)
  | _, _ => false

/-- Modelled from the spec: `litestar.utils.predicates.is_any` — whether the
annotation is `typing.Any`. -/
def is_any_ann : TypeAnn → Bool
  | .anyA => true
  | _ => false

/-- `_unpack_predicate`: an `annotated_types.Predicate` whose `func` is
`str.islower` / `str.isupper` / `str.isascii` / `str.isdigit` yields the
corresponding constraint dict; every other value yields an empty dict
(the embedding assumes `annotated_types` is importable; when it is not,
CPython takes the `ImportError` branch and returns the same empty dict). -/
def unpack_predicate (value : MetaVal) : PyDict :=
  match value with
  | .predicate .islower => [("lower_case", .boolVal true)]
  | .predicate .isupper => [("upper_case", .boolVal true)]
  | .predicate .isascii => [("pattern", .strVal "[[:ascii:]]")]
  | .predicate .isdigit => [("pattern", .strVal "[[:digit:]]")]
  | _ => []

/-- `_parse_metadata`: parse one metadata value into a constraint dict.
Returns the dict together with the caller's `extra` dict after the
side-effecting `extra.pop("example", None)` (the pop hits the caller's dict
only when that dict was truthy; otherwise `value.extra` is consulted and the
caller's dict is left alone). Keys whose value is `None` are dropped by the
final comprehension. -/
def parse_metadata (value : MetaVal) (is_sequence_container : Bool)
    (extra : PyDict) : PyDict × PyDict :=
  let usingCaller := !extra.isEmpty
  let exBase : PyDict :=
    if usingCaller then extra
    else
      match mgetattr value "extra" with
      | .dictVal d => d
      | _ => []
  let popped := dpop exBase "example"
  let exampleV := popped.1
  let ex := popped.2
  let example_list : Option (List PyVal) :=
    if pyTruthy exampleV then some [.exampleVal exampleV]
    else
      match mgetattr value "examples" with
      | .listVal l => if l.isEmpty then none else some (l.map PyVal.exampleVal)
      | _ => none
  let entries : PyDict := [
    ("gt", mgetattr value "gt"),
    ("ge", mgetattr value "ge"),
    ("lt", mgetattr value "lt"),
    ("le", mgetattr value "le"),
    ("multiple_of", mgetattr value "multiple_of"),
    ("min_length", if is_sequence_container then .pyNone else mgetattr value "min_length"),
    ("max_length", if is_sequence_container then .pyNone else mgetattr value "max_length"),
    ("description", mgetattr value "description"),
    ("examples", match example_list with | some l => .listVal l | none => .pyNone),
    ("title", mgetattr value "title"),
    ("lower_case", mgetattr value "to_lower"),
    ("upper_case", mgetattr value "to_upper"),
    ("pattern", mgetattrD value "regex" (mgetattr value "pattern")),
    ("min_items", if is_sequence_container then mgetattrD value "min_items" (mgetattr value "min_length") else .pyNone),
    ("max_items", if is_sequence_container then mgetattrD value "max_items" (mgetattr value "max_length") else .pyNone),
    ("const", .boolVal (!(isNoneP (mgetattr value "const"))))
  ]
  let d := dupdate entries ex
  (d.filter (fun kv => !(isNoneP kv.2)), if usingCaller then ex else extra)

theorem sizeOf_filter_le {α : Type} [SizeOf α] (p : α → Bool) (l : List α) :
    sizeOf (l.filter p) ≤ sizeOf l := by
  induction l with
  | nil => simp
  | cons a l ih =>
    by_cases h : p a <;> simp [List.filter, h] <;> omega

mutual
/-- `_traverse_metadata`: fold `_parse_metadata` / `_unpack_predicate` over a
metadata sequence, recursing into nested `Annotated` metadata. Returns the
constraint dict and the caller's `extra` dict after any pops. -/
def traverse_metadata (metadata : List MetaVal) (is_sequence_container : Bool)
    (extra : PyDict) : PyDict × PyDict :=
  traverse_go metadata [] is_sequence_container extra
termination_by sizeOf metadata + 1
decreasing_by simp_wf <;> omega

/-- The loop of `_traverse_metadata` (`constraints` is the accumulator). -/
def traverse_go (metadata : List MetaVal) (constraints : PyDict)
    (is_sequence_container : Bool) (extra : PyDict) : PyDict × PyDict :=
  match metadata with
  | [] => (constraints, extra)
  | value :: rest =>
    let s := traverse_step value is_sequence_container extra
    traverse_go rest (dupdate constraints s.1) is_sequence_container s.2
termination_by sizeOf metadata
decreasing_by all_goals simp_wf <;> omega

/-- One iteration of the `_traverse_metadata` loop. For a nested
`Annotated[base, ms...]` value, `get_args` yields `(base, *ms)`; the
`v is not None` filter always keeps the head `base` (a type), so
`type_args[1:]` is `ms` with the value `None` filtered out, and the
recursion fires exactly when that remainder is nonempty
(`len(type_args) > 1`). -/
def traverse_step (value : MetaVal) (is_sequence_container : Bool)
    (extra : PyDict) : PyDict × PyDict :=
  match value with
  | .ty (.annotated _base ms) =>
    let restArgs := ms.filter (fun m => !(isNoneMeta m))
    if restArgs.isEmpty then ([], extra)
    else traverse_metadata restArgs is_sequence_container extra
  | v =>
    let up := unpack_predicate v
    if !up.isEmpty then (up, extra)
    else parse_metadata v is_sequence_container extra
termination_by sizeOf value
decreasing_by
  simp_wf
  rename_i b ms hne
  have h := sizeOf_filter_le (fun m => !(isNoneMeta m)) ms
  omega
end

/-- Modelled from the spec: `dir(model)` for the kwarg model classes of
`litestar.params` — the attribute names of `KwargDefinition` plus the
kind-specific fields of `ParameterKwarg` (`header`, `cookie`, `query`,
`required`) or `BodyKwarg` (`media_type`, `multipart_form_part_limit`).
(Real `dir()` also lists methods and dunders; only the field names can
collide with constraint keys produced here.) -/
def dirOf (model : KwargKind) : List String :=
  let common := ["examples", "external_docs", "content_encoding", "default",
    "title", "description", "const", "gt", "ge", "lt", "le", "multiple_of",
    "format", "min_items", "max_items", "min_length", "max_length",
    "pattern", "lower_case", "upper_case", "enum"]
  match model with
  | .parameterK => common ++ ["header", "cookie", "query", "required"]
  | .bodyK => common ++ ["media_type", "multipart_form_part_limit"]

/-- `_create_metadata_from_type`: traverse the metadata, then split the
resulting constraint dict by membership in `dir(model)`; matching keys
become the kwarg-definition constructor kwargs, the rest become `extra`. -/
def create_metadata_from_type (metadata : List MetaVal) (model : KwargKind)
    (ann : TypeAnn) (extra : PyDict) : Option KD × PyDict :=
  let is_sequence_container := is_non_string_sequence ann
  let result := (traverse_metadata metadata is_sequence_container extra).1
  let constraints := result.filter (fun kv => (dirOf model).contains kv.1)
  let extra2 := result.filter (fun kv => !((dirOf model).contains kv.1))
  (if constraints.isEmpty then none else some (.kwarg model constraints), extra2)

/-- A `KwargDefinition` (not `DependencyKwarg`) instance, as tested by the
`isinstance(arg, KwargDefinition)` check in `_extract_metadata`. -/
def asKwargDefinition : PyVal → Option KD
  | .kd (.kwarg kind cs) => some (.kwarg kind cs)
  | _ => none

/-- The first `KwargDefinition` among `get_args(annotation)` of the *raw*
annotation (line `any(isinstance(arg, KwargDefinition) for arg in
get_args(annotation))` of `_extract_metadata`): for `Annotated[base, ms...]`
the args are `(base, *ms)`; for other generics they are the type args. -/
def rawArgsFirstKd : TypeAnn → Option KD
  | .annotated base ms =>
    Option.orElse
      (match base with
       | .litValue v => asKwargDefinition v
       | _ => none)
      (fun _ => ms.findSome? (fun m =>
        match m with
        | .val v => asKwargDefinition v
        | _ => none))
  | .generic _ args =>
    args.findSome? (fun t =>
      match t with
      | .litValue v => asKwargDefinition v
      | _ => none)
  | _ => none

/-- `FieldDefinition._extract_metadata`. The pydantic-`FieldInfo`-default,
pydantic-constrained-field and `AbstractDTOFactory` branches concern
external-library values outside the embedded universe and never fire. -/
def extract_metadata (ann : TypeAnn) (name : String) (_default : PyVal)
    (metadata : List MetaVal) (extra : PyDict) : Option KD × PyDict :=
  let model := if name = "data" then KwargKind.bodyK else KwargKind.parameterK
  match rawArgsFirstKd ann with
  | some k => (some k, extra)
  | none =>
    if metadata.isEmpty then (none, [])
    else create_metadata_from_type metadata model ann extra

/-- The twelve non-recursive fields of `FieldDefinition` (the thirteenth,
`inner_types`, is recursive and lives on the inductive wrapper below). -/
structure FDCore where
  raw : TypeAnn
  ann : TypeAnn
  type_wrappers : List Wrapper
  origin : Option GenOrigin
  args : List TypeAnn
  metadata : List MetaVal
  instantiable_origin : Option GenOrigin
  safe_generic_origin : Option GenOrigin
  default : PyVal
  extra : PyDict
  kwarg_definition : Option KD
  name : String

/-- `FieldDefinition`: a frozen, slotted dataclass with thirteen fields
(the twelve of `FDCore` plus `inner_types`). -/
inductive FieldDefinition where
  | mk (core : FDCore) (inner_types : List FieldDefinition)

/-- The non-recursive fields. -/
def FieldDefinition.core : FieldDefinition → FDCore
  | .mk c _ => c

/-- The type's generic args parsed as `FieldDefinition`s. -/
def FieldDefinition.inner_types : FieldDefinition → List FieldDefinition
  | .mk _ l => l

/-- The annotation exactly as received (`raw`). -/
def FieldDefinition.raw (fd : FieldDefinition) : TypeAnn := fd.core.raw

/-- The annotation with any wrapper types removed (`annotation`). -/
def FieldDefinition.ann (fd : FieldDefinition) : TypeAnn := fd.core.ann

/-- All removed wrapper types (`type_wrappers`). -/
def FieldDefinition.type_wrappers (fd : FieldDefinition) : List Wrapper :=
  fd.core.type_wrappers

/-- `get_origin` of the unwrapped annotation (`origin`). -/
def FieldDefinition.origin (fd : FieldDefinition) : Option GenOrigin :=
  fd.core.origin

/-- `get_args` of the unwrapped annotation (`args`). -/
def FieldDefinition.args (fd : FieldDefinition) : List TypeAnn := fd.core.args

/-- Metadata attached via `Annotated` (`metadata`). -/
def FieldDefinition.metadata (fd : FieldDefinition) : List MetaVal :=
  fd.core.metadata

/-- An instantiable equivalent of `origin` (`instantiable_origin`). -/
def FieldDefinition.instantiable_origin (fd : FieldDefinition) :
    Option GenOrigin := fd.core.instantiable_origin

/-- A generics-safe equivalent of `origin` (`safe_generic_origin`). -/
def FieldDefinition.safe_generic_origin (fd : FieldDefinition) :
    Option GenOrigin := fd.core.safe_generic_origin

/-- Default value of the field. -/
def FieldDefinition.default (fd : FieldDefinition) : PyVal := fd.core.default

/-- A mapping of extra values. -/
def FieldDefinition.extra (fd : FieldDefinition) : PyDict := fd.core.extra

/-- Kwarg parameter (`kwarg_definition`). -/
def FieldDefinition.kwarg_definition (fd : FieldDefinition) : Option KD :=
  fd.core.kwarg_definition

/-- Field name. -/
def FieldDefinition.name (fd : FieldDefinition) : String := fd.core.name

/-- Modelled from the spec: `litestar.utils.typing.get_instantiable_origin`
— an equivalent type to `origin` that can be safely instantiated
(e.g. `Sequence` -> `list`, `Mapping` -> `dict`). -/
def get_instantiable_origin (origin : Option GenOrigin) (_unwrapped : TypeAnn) :
    Option GenOrigin :=
  match origin with
  | some (.cls .sequenceC) => some (.cls .listC)
  | some (.cls .iterableC) => some (.cls .listC)
  | some (.cls .collectionC) => some (.cls .listC)
  | some (.cls .mappingC) => some (.cls .dictC)
  | some (.cls .setC) => some (.cls .setC)
  | o => o

/-- Modelled from the spec: `litestar.utils.typing.get_safe_generic_origin`
— the typing-module generic counterpart of `origin` (e.g. `list` ->
`typing.List`); the embedding identifies a class with its typing
counterpart, so this is the origin itself. -/
def get_safe_generic_origin (origin : Option GenOrigin)
    (_unwrapped : TypeAnn) : Option GenOrigin :=
  origin

/-- The keyword arguments accepted by `FieldDefinition.from_annotation` at
its call sites in this module (`from_kwarg` and `from_parameter` pass
exactly `name`, `default`, `inner_types`, `kwarg_definition` and `extra`;
`none` models an absent key). For `extra`, `none` and an empty dict behave
identically everywhere (`kwargs.get("extra", {})` and Python truthiness), so
absent-vs-empty need not be distinguished. -/
structure FAKwargs where
  name : Option String := none
  default : Option PyVal := none
  inner_types : Option (List FieldDefinition) := none
  kwarg_definition : Option KD := none
  extra : Option PyDict := none

theorem one_le_sizeOf_list {α : Type} [SizeOf α] (l : List α) :
    1 ≤ sizeOf l := by
  cases l <;> simp <;> omega

/-- The first `KwargDefinition` / `DependencyKwarg` among the metadata. -/
def firstKdMeta (metadata : List MetaVal) : Option KD :=
  metadata.findSome? (fun m =>
    match m with
    | .val (.kd k) => some k
    | _ => none)

/-- The guard `annotation if annotation is not Empty else Any` at the top of
`from_annotation`: the `Empty` sentinel (the marker for "no annotation")
is replaced by `Any`. -/
def guardEmpty (a : TypeAnn) : TypeAnn :=
  match a with
  | .litValue .empty => .anyA
  | a => a

/-- The kwarg-definition resolution block of `from_annotation`: given the
caller kwargs and the unwrapping's metadata, produce the resolved
`(kwarg_definition, default kwarg, extra, metadata)`. In order: an explicit
`kwarg_definition` kwarg wins; else a kwarg-definition passed as `default`
is popped into place; else the first kwarg-definition among the `Annotated`
metadata is moved out of the metadata; else a `"kwarg_definition"` entry of
a truthy `extra` is popped into place; else `_extract_metadata` supplies
both `kwarg_definition` and `extra`. -/
def resolve_kwargs (ann0 : TypeAnn) (kw : FAKwargs)
    (metadata0 : List MetaVal) :
    Option KD × Option PyVal × PyDict × List MetaVal :=
  match kw.kwarg_definition with
  | some k => (some k, kw.default, kw.extra.getD [], metadata0)
  | none =>
    match kw.default with
    | some (.kd k) => (some k, none, kw.extra.getD [], metadata0)
    | _ =>
      if metadata0.any isKdMeta then
        (firstKdMeta metadata0, kw.default, kw.extra.getD [],
          metadata0.filter (fun m => !(isKdMeta m)))
      else
        let ex0 := kw.extra.getD []
        match dlookup ex0 "kwarg_definition" with
        | some (.kd k) =>
          (some k, kw.default, dremove ex0 "kwarg_definition", metadata0)
        | _ =>
          let em := extract_metadata ann0 (kw.name.getD "")
            ((kw.default).getD .empty) metadata0 ex0
          (em.1, kw.default, em.2, metadata0)

/-- `has_default`: the default is neither `Empty` nor `Ellipsis`. -/
def FieldDefinition.has_default (fd : FieldDefinition) : Bool :=
  !(isEmptyP fd.default) && !(isEllipsisP fd.default)

/-- The final step of `from_annotation`:
`if not instance.has_default and instance.kwarg_definition:
return replace(instance, default=instance.kwarg_definition.default)`. -/
def applyKdDefault (inst : FieldDefinition) : FieldDefinition :=
  match inst.kwarg_definition with
  | some k =>
    if inst.has_default then inst
    else .mk { inst.core with default := k.defaultVal } inst.inner_types
  | none => inst

mutual
/-- `FieldDefinition.from_annotation` (rendered `from_ann`). The `Empty`
sentinel passed as annotation is replaced by `Any` before unwrapping; the
kwarg-definition is resolved by `resolve_kwargs`; finally `applyKdDefault`
rebuilds the instance with the kwarg definition's default when the instance
has no default of its own. -/
def FieldDefinition.from_ann (ann0 : TypeAnn) (kw : FAKwargs) :
    FieldDefinition :=
  let u := unwrap_ann (guardEmpty ann0)
  let unwrapped := u.1
  let origin := get_origin unwrapped
  let args := if origin = some .callableO then [] else get_args unwrapped
  let res := resolve_kwargs ann0 kw u.2.1
  applyKdDefault (.mk
    { raw := ann0
      ann := unwrapped
      type_wrappers := u.2.2
      origin := origin
      args := args
      metadata := res.2.2.2
      instantiable_origin := get_instantiable_origin origin unwrapped
      safe_generic_origin := get_safe_generic_origin origin unwrapped
      default := (res.2.1).getD .empty
      extra := res.2.2.1
      kwarg_definition := res.1
      name := kw.name.getD "" }
    (kw.inner_types.getD (faDefaultInner ann0)))
termination_by sizeOf ann0 + 1
decreasing_by simp_wf <;> omega

/-- The default `inner_types`: `from_annotation` applied to each element of
the computed `args` (`get_args` of the unwrapped annotation, empty for
`Callable`; the `Empty`-sentinel guard is immaterial here since both the
sentinel and `Any` have no args). -/
def faDefaultInner (ann0 : TypeAnn) : List FieldDefinition :=
  match ann0 with
  | .annotated base _ => faDefaultInner base
  | .requiredT base => faDefaultInner base
  | .notRequiredT base => faDefaultInner base
  | .generic o as => if o = .callableO then [] else faList as
  | _ => []
termination_by sizeOf ann0
decreasing_by all_goals simp_wf <;> omega

/-- `from_annotation` mapped over a list of annotations. -/
def faList (l : List TypeAnn) : List FieldDefinition :=
  match l with
  | [] => []
  | a :: rest => FieldDefinition.from_ann a {} :: faList rest
termination_by sizeOf l
decreasing_by
  · simp_wf
    have h := one_le_sizeOf_list rest
    omega
  · simp_wf <;> omega
end

/-- `is_any`: the field type is `Any`. -/
def FieldDefinition.is_any (fd : FieldDefinition) : Bool :=
  is_any_ann fd.ann

/-- `is_union`: `self.origin in UnionTypes`. -/
def FieldDefinition.is_union (fd : FieldDefinition) : Bool :=
  match fd.origin with
  | some .unionO => true
  | _ => false

/-- `NoneType` membership test used by `is_optional`. -/
def isNoneTypeAnn : TypeAnn → Bool
  | .cls .noneC => true
  | _ => false

/-- `is_optional`: `self.is_union and NoneType in self.args`. -/
def FieldDefinition.is_optional (fd : FieldDefinition) : Bool :=
  fd.is_union && fd.args.any isNoneTypeAnn

/-- `is_type_var`: `isinstance(self.annotation, TypeVar)` (`AnyStr` is a
`TypeVar` instance). -/
def FieldDefinition.is_type_var (fd : FieldDefinition) : Bool :=
  match fd.ann with
  | .typeVar _ => true
  | .anyStr => true
  | _ => false

/-- `is_literal`: `get_origin(self.annotation) is Literal`. -/
def FieldDefinition.is_literal (fd : FieldDefinition) : Bool :=
  match get_origin fd.ann with
  | some .literalO => true
  | _ => false

/-- `is_required`: `Required` wrapper wins, then `NotRequired`, then an
explicitly set `required` of a `ParameterKwarg`, then the default rule
`not optional and not Any and (no default or default is None)`. -/
def FieldDefinition.is_required (fd : FieldDefinition) : Bool :=
  if fd.type_wrappers.contains .requiredW then true
  else if fd.type_wrappers.contains .notRequiredW then false
  else
    match fd.kwarg_definition with
    | some (KD.kwarg .parameterK cs) =>
      match KD.requiredAttr (.kwarg .parameterK cs) with
      | some b => b
      | none =>
        !fd.is_optional && !fd.is_any && (!fd.has_default || isNoneP fd.default)
    | _ =>
      !fd.is_optional && !fd.is_any && (!fd.has_default || isNoneP fd.default)

mutual
/-- `is_subclass_of`: for a union origin, all `inner_types` must be
subclasses; for any other truthy origin, `is_class_and_subclass(origin, cl)`;
with no origin, `AnyStr` means `str` or `bytes`, while `Any` and bare
`TypeVar`s are never subclasses. -/
def FieldDefinition.is_subclass_of : FieldDefinition → List PyClass → Bool
  | .mk core inner, cl =>
    match core.origin with
    | some o =>
      if o = .unionO then allSubclassOf inner cl
      else origin_is_class_and_subclass o cl
    | none =>
      match core.ann with
      | .anyStr =>
        is_class_and_subclass (.cls .strC) cl ||
          is_class_and_subclass (.cls .bytesC) cl
      | .anyA => false
      | .typeVar _ => false
      | a => is_class_and_subclass a cl

/-- `all(t.is_subclass_of(cl) for t in self.inner_types)`. -/
def allSubclassOf : List FieldDefinition → List PyClass → Bool
  | [], _ => true
  | f :: rest, cl => f.is_subclass_of cl && allSubclassOf rest cl
end

/-- `has_inner_subclass_of`: whether any generic arg is a subclass. -/
def FieldDefinition.has_inner_subclass_of (fd : FieldDefinition)
    (cl : List PyClass) : Bool :=
  fd.inner_types.any (fun t => t.is_subclass_of cl)

/-- `is_collection`: subclass of `Collection`. -/
def FieldDefinition.is_collection (fd : FieldDefinition) : Bool :=
  fd.is_subclass_of [.collectionC]

/-- `is_mapping`: subclass of `Mapping`. -/
def FieldDefinition.is_mapping (fd : FieldDefinition) : Bool :=
  fd.is_subclass_of [.mappingC]

/-- `is_non_string_collection`: a collection that is not `str`/`bytes`. -/
def FieldDefinition.is_non_string_collection (fd : FieldDefinition) : Bool :=
  fd.is_collection && !(fd.is_subclass_of [.strC, .bytesC])

mutual
/-- Python `==` on the modelled values (structural; dict comparison is
order-sensitive here, which agrees with Python on the dicts this module
builds since equal dicts are built in the same key order). -/
def pyValEq : PyVal → PyVal → Bool
  | .empty, .empty => true
  | .pyNone, .pyNone => true
  | .ellipsis, .ellipsis => true
  | .intVal n, .intVal m => n = m
  | .strVal a, .strVal b => a = b
  | .boolVal a, .boolVal b => a = b
  | .listVal a, .listVal b => pyListEq a b
  | .dictVal a, .dictVal b => pyDictEq a b
  | .exampleVal a, .exampleVal b => pyValEq a b
  | .kd a, .kd b => kdEq a b
  | _, _ => false

/-- Elementwise `==` on value lists. -/
def pyListEq : List PyVal → List PyVal → Bool
  | [], [] => true
  | a :: r, b :: s => pyValEq a b && pyListEq r s
  | _, _ => false

/-- `==` on dicts (see `pyValEq`). -/
def pyDictEq : List (String × PyVal) → List (String × PyVal) → Bool
  | [], [] => true
  | (k, v) :: r, (k2, v2) :: s => k = k2 && pyValEq v v2 && pyDictEq r s
  | _, _ => false

/-- Dataclass `==` on kwarg definitions. -/
def kdEq : KD → KD → Bool
  | .kwarg k1 c1, .kwarg k2 c2 => k1 = k2 && pyDictEq c1 c2
  | .dependency d1 s1, .dependency d2 s2 => pyValEq d1 d2 && s1 = s2
  | _, _ => false
end

mutual
/-- Python `==` on type annotations (structural equality of type
descriptors). -/
def annEq : TypeAnn → TypeAnn → Bool
  | .cls a, .cls b => a = b
  | .anyA, .anyA => true
  | .anyStr, .anyStr => true
  | .typeVar a, .typeVar b => a = b
  | .forwardRef a, .forwardRef b => a = b
  | .generic o1 a1, .generic o2 a2 => o1 = o2 && annListEq a1 a2
  | .annotated b1 m1, .annotated b2 m2 => annEq b1 b2 && metaListEq m1 m2
  | .requiredT a, .requiredT b => annEq a b
  | .notRequiredT a, .notRequiredT b => annEq a b
  | .litValue a, .litValue b => pyValEq a b
  | _, _ => false

/-- Elementwise `==` on annotation lists. -/
def annListEq : List TypeAnn → List TypeAnn → Bool
  | [], [] => true
  | a :: r, b :: s => annEq a b && annListEq r s
  | _, _ => false

/-- Python `==` on metadata values. -/
def metaEq : MetaVal → MetaVal → Bool
  | .obj a, .obj b => pyDictEq a b
  | .predicate a, .predicate b => a = b
  | .ty a, .ty b => annEq a b
  | .val a, .val b => pyValEq a b
  | _, _ => false

/-- Elementwise `==` on metadata lists. -/
def metaListEq : List MetaVal → List MetaVal → Bool
  | [], [] => true
  | a :: r, b :: s => metaEq a b && metaListEq r s
  | _, _ => false
end

mutual
/-- `FieldDefinition.__eq__` against another `FieldDefinition`: with a
truthy `origin`, compare `origin` and `inner_types` (tuple `==`, i.e.
elementwise custom `__eq__`); otherwise compare the unwrapped annotations. -/
def fdEq : FieldDefinition → FieldDefinition → Bool
  | .mk c1 i1, .mk c2 i2 =>
    if c1.origin.isSome then
      decide (c1.origin = c2.origin) && fdListEq i1 i2
    else annEq c1.ann c2.ann

/-- Tuple `==` on `inner_types` (elementwise `FieldDefinition.__eq__`). -/
def fdListEq : List FieldDefinition → List FieldDefinition → Bool
  | [], [] => true
  | a :: r, b :: s => fdEq a b && fdListEq r s
  | _, _ => false
end

/-- The right-hand side of a `FieldDefinition.__eq__` call: another
`FieldDefinition` or an arbitrary non-`FieldDefinition` value. -/
inductive EqOther where
  | fd (x : FieldDefinition)
  | other (v : PyVal)

/-- `FieldDefinition.__eq__`: `isinstance(other, FieldDefinition)` gates the
comparison; any other value compares unequal. -/
def fdEqAny : FieldDefinition → EqOther → Bool
  | a, .fd b => fdEq a b
  | _, .other _ => false

/-- The tuple hashed by `FieldDefinition.__hash__`:
`(name, raw, annotation, origin, inner_types)`. Two instances hash equal
exactly when CPython hashes these tuples equal; distinct tuples are hashed
as distinct values. -/
def hashInput (fd : FieldDefinition) :
    String × TypeAnn × TypeAnn × Option GenOrigin × List FieldDefinition :=
  (fd.name, fd.raw, fd.ann, fd.origin, fd.inner_types)

/-- `FieldDefinition.from_kwarg`. The Python signature defaults are
`default=Empty` and `None` for the remaining kwargs; the dict comprehension
forwards only non-`None` values to `from_annotation`, so a `None` default is
dropped (and the field then defaults to `Empty`). -/
def FieldDefinition.from_kwarg (ann0 : TypeAnn) (name : String)
    (default : PyVal) (inner_types : Option (List FieldDefinition))
    (kwarg_definition : Option KD) (extra : Option PyDict) : FieldDefinition :=
  FieldDefinition.from_ann ann0
    { name := some name
      default := if isNoneP default then none else some default
      inner_types := inner_types
      kwarg_definition := kwarg_definition
      extra := extra }

/-- An `inspect.Parameter`: its name and default
(`none` models `inspect.Signature.empty`, i.e. no default). -/
structure Parameter where
  name : String
  default : Option PyVal

/-- The exceptions `from_parameter` can surface:
`ImproperlyConfiguredException` raised by the module itself, or the
`TypeError` CPython's `issubclass` raises on a non-class first argument. -/
inductive PyErr where
  | improperlyConfigured (msg : String)
  | typeError

/-- CPython's builtin `issubclass`: defined on classes, raises `TypeError`
when the first argument is not a class (`Any`, unions, generic aliases,
type variables, forward references, plain values...). -/
def builtin_issubclass (t : TypeAnn) (c : PyClass) : Except PyErr Bool :=
  match t with
  | .cls c' => .ok (subclassB c' c)
  | _ => .error .typeError

/-- Association lookup in `fn_type_hints`. -/
def lookupHint (hints : List (String × TypeAnn)) (k : String) :
    Option TypeAnn :=
  match hints with
  | [] => none
  | (k', v) :: rest => if k' = k then some v else lookupHint rest k

/-- `FieldDefinition.from_parameter`: a missing type hint raises
`ImproperlyConfiguredException`; a parameter named `state` must subclass
`ImmutableState` (the check itself raises `TypeError` on non-class
annotations); otherwise delegate to `from_kwarg` with `Empty` for a missing
default. -/
def FieldDefinition.from_parameter (p : Parameter)
    (fn_type_hints : List (String × TypeAnn)) : Except PyErr FieldDefinition :=
  match lookupHint fn_type_hints p.name with
  | none => .error (.improperlyConfigured
      (p.name ++ " does not have a type annotation. If it should receive any value, use Any."))
  | some annot =>
    if p.name = "state" then
      match builtin_issubclass annot .immutableStateC with
      | .error e => .error e
      | .ok true =>
        .ok (FieldDefinition.from_kwarg annot p.name
          ((p.default).getD .empty) none none none)
      | .ok false => .error (.improperlyConfigured
          "invalid type for the state reserved kwarg: it must be typed to a subclass of ImmutableState or State")
    else
      .ok (FieldDefinition.from_kwarg annot p.name
        ((p.default).getD .empty) none none none)

/-! ## Lemma layer -/

@[simp] theorem core_mk (c : FDCore) (i : List FieldDefinition) :
    (FieldDefinition.mk c i).core = c := rfl

@[simp] theorem inner_types_mk (c : FDCore) (i : List FieldDefinition) :
    (FieldDefinition.mk c i).inner_types = i := rfl

@[simp] theorem raw_mk (c : FDCore) (i : List FieldDefinition) :
    (FieldDefinition.mk c i).raw = c.raw := rfl

@[simp] theorem ann_mk (c : FDCore) (i : List FieldDefinition) :
    (FieldDefinition.mk c i).ann = c.ann := rfl

@[simp] theorem type_wrappers_mk (c : FDCore) (i : List FieldDefinition) :
    (FieldDefinition.mk c i).type_wrappers = c.type_wrappers := rfl

@[simp] theorem origin_mk (c : FDCore) (i : List FieldDefinition) :
    (FieldDefinition.mk c i).origin = c.origin := rfl

@[simp] theorem args_mk (c : FDCore) (i : List FieldDefinition) :
    (FieldDefinition.mk c i).args = c.args := rfl

@[simp] theorem metadata_mk (c : FDCore) (i : List FieldDefinition) :
    (FieldDefinition.mk c i).metadata = c.metadata := rfl

@[simp] theorem instantiable_origin_mk (c : FDCore) (i : List FieldDefinition) :
    (FieldDefinition.mk c i).instantiable_origin = c.instantiable_origin := rfl

@[simp] theorem safe_generic_origin_mk (c : FDCore) (i : List FieldDefinition) :
    (FieldDefinition.mk c i).safe_generic_origin = c.safe_generic_origin := rfl

@[simp] theorem default_mk (c : FDCore) (i : List FieldDefinition) :
    (FieldDefinition.mk c i).default = c.default := rfl

@[simp] theorem extra_mk (c : FDCore) (i : List FieldDefinition) :
    (FieldDefinition.mk c i).extra = c.extra := rfl

@[simp] theorem kwarg_definition_mk (c : FDCore) (i : List FieldDefinition) :
    (FieldDefinition.mk c i).kwarg_definition = c.kwarg_definition := rfl

@[simp] theorem name_mk (c : FDCore) (i : List FieldDefinition) :
    (FieldDefinition.mk c i).name = c.name := rfl

theorem guardEmpty_of_ne (A : TypeAnn) (h : A ≠ .litValue .empty) :
    guardEmpty A = A := by
  unfold guardEmpty
  cases A with
  | litValue v => cases v <;> simp_all
  | _ => rfl

/-- One-step unfolding of `from_ann` into its non-recursive components. -/
theorem from_ann_eq (A : TypeAnn) (kw : FAKwargs) :
    FieldDefinition.from_ann A kw =
      applyKdDefault (.mk
        { raw := A
          ann := (unwrap_ann (guardEmpty A)).1
          type_wrappers := (unwrap_ann (guardEmpty A)).2.2
          origin := get_origin (unwrap_ann (guardEmpty A)).1
          args := if get_origin (unwrap_ann (guardEmpty A)).1 = some .callableO
            then [] else get_args (unwrap_ann (guardEmpty A)).1
          metadata := (resolve_kwargs A kw (unwrap_ann (guardEmpty A)).2.1).2.2.2
          instantiable_origin := get_instantiable_origin
            (get_origin (unwrap_ann (guardEmpty A)).1) (unwrap_ann (guardEmpty A)).1
          safe_generic_origin := get_safe_generic_origin
            (get_origin (unwrap_ann (guardEmpty A)).1) (unwrap_ann (guardEmpty A)).1
          default := ((resolve_kwargs A kw (unwrap_ann (guardEmpty A)).2.1).2.1).getD .empty
          extra := (resolve_kwargs A kw (unwrap_ann (guardEmpty A)).2.1).2.2.1
          kwarg_definition := (resolve_kwargs A kw (unwrap_ann (guardEmpty A)).2.1).1
          name := kw.name.getD "" }
        (kw.inner_types.getD (faDefaultInner A))) := by
  rw [FieldDefinition.from_ann]

theorem applyKdDefault_raw (x : FieldDefinition) :
    (applyKdDefault x).raw = x.raw := by
  cases x with
  | mk c i => unfold applyKdDefault; split <;> simp_all <;> split <;> simp_all

theorem applyKdDefault_ann (x : FieldDefinition) :
    (applyKdDefault x).ann = x.ann := by
  cases x with
  | mk c i => unfold applyKdDefault; split <;> simp_all <;> split <;> simp_all

theorem applyKdDefault_type_wrappers (x : FieldDefinition) :
    (applyKdDefault x).type_wrappers = x.type_wrappers := by
  cases x with
  | mk c i => unfold applyKdDefault; split <;> simp_all <;> split <;> simp_all

theorem applyKdDefault_origin (x : FieldDefinition) :
    (applyKdDefault x).origin = x.origin := by
  cases x with
  | mk c i => unfold applyKdDefault; split <;> simp_all <;> split <;> simp_all

theorem applyKdDefault_args (x : FieldDefinition) :
    (applyKdDefault x).args = x.args := by
  cases x with
  | mk c i => unfold applyKdDefault; split <;> simp_all <;> split <;> simp_all

theorem applyKdDefault_metadata (x : FieldDefinition) :
    (applyKdDefault x).metadata = x.metadata := by
  cases x with
  | mk c i => unfold applyKdDefault; split <;> simp_all <;> split <;> simp_all

theorem applyKdDefault_extra (x : FieldDefinition) :
    (applyKdDefault x).extra = x.extra := by
  cases x with
  | mk c i => unfold applyKdDefault; split <;> simp_all <;> split <;> simp_all

theorem applyKdDefault_kwarg_definition (x : FieldDefinition) :
    (applyKdDefault x).kwarg_definition = x.kwarg_definition := by
  cases x with
  | mk c i => unfold applyKdDefault; split <;> simp_all <;> split <;> simp_all

theorem applyKdDefault_name (x : FieldDefinition) :
    (applyKdDefault x).name = x.name := by
  cases x with
  | mk c i => unfold applyKdDefault; split <;> simp_all <;> split <;> simp_all

theorem applyKdDefault_inner_types (x : FieldDefinition) :
    (applyKdDefault x).inner_types = x.inner_types := by
  cases x with
  | mk c i => unfold applyKdDefault; split <;> simp_all <;> split <;> simp_all

theorem applyKdDefault_default (x : FieldDefinition) :
    (applyKdDefault x).default =
      match x.kwarg_definition with
      | some k => if x.has_default then x.default else k.defaultVal
      | none => x.default := by
  cases x with
  | mk c i => unfold applyKdDefault; split <;> simp_all <;> split <;> simp_all

/-- `faList` is `from_ann` mapped with default kwargs. -/
theorem faList_eq (l : List TypeAnn) :
    faList l = l.map (fun a => FieldDefinition.from_ann a {}) := by
  induction l with
  | nil => simp [faList]
  | cons a rest ih => rw [faList]; simp [ih]

/-- The `args` value `from_ann` computes for an annotation. -/
def faArgs (A : TypeAnn) : List TypeAnn :=
  if get_origin (unwrap_ann (guardEmpty A)).1 = some .callableO then []
  else get_args (unwrap_ann (guardEmpty A)).1

/-- The sentinel guard does not change the computed args. -/
theorem faArgs_guard (A : TypeAnn) :
    faArgs A = (if get_origin (unwrap_ann A).1 = some .callableO then []
      else get_args (unwrap_ann A).1) := by
  unfold faArgs guardEmpty
  cases A with
  | litValue v => cases v <;> simp [unwrap_ann, get_origin, get_args]
  | _ => rfl

/-- The default `inner_types` are `from_ann` of each computed arg. -/
theorem faDefaultInner_eq (A : TypeAnn) :
    faDefaultInner A = (faArgs A).map (fun a => FieldDefinition.from_ann a {}) := by
  have H : ∀ (n : Nat) (A : TypeAnn), sizeOf A ≤ n →
      faDefaultInner A = (faArgs A).map (fun a => FieldDefinition.from_ann a {}) := by
    intro n
    induction n with
    | zero =>
      intro A hA
      exfalso
      cases A <;> simp_arith at hA
    | succ n ih =>
      intro A hA
      match A with
      | .annotated base ms =>
        rw [faDefaultInner.eq_def]
        simp only
        rw [ih base (by simp_arith at hA; omega), faArgs_guard, faArgs_guard]
        simp [unwrap_ann]
      | .requiredT base =>
        rw [faDefaultInner.eq_def]
        simp only
        rw [ih base (by simp_arith at hA; omega), faArgs_guard, faArgs_guard]
        simp [unwrap_ann]
      | .notRequiredT base =>
        rw [faDefaultInner.eq_def]
        simp only
        rw [ih base (by simp_arith at hA; omega), faArgs_guard, faArgs_guard]
        simp [unwrap_ann]
      | .generic o as =>
        rw [faDefaultInner.eq_def]
        simp only
        rw [faList_eq, faArgs_guard]
        by_cases h : o = GenOrigin.callableO <;>
          simp [h, unwrap_ann, get_origin, get_args]
      | .cls c =>
        rw [faDefaultInner.eq_def]
        simp [faArgs, unwrap_ann, get_origin, get_args, guardEmpty]
      | .anyA =>
        rw [faDefaultInner.eq_def]
        simp [faArgs, unwrap_ann, get_origin, get_args, guardEmpty]
      | .anyStr =>
        rw [faDefaultInner.eq_def]
        simp [faArgs, unwrap_ann, get_origin, get_args, guardEmpty]
      | .typeVar nm =>
        rw [faDefaultInner.eq_def]
        simp [faArgs, unwrap_ann, get_origin, get_args, guardEmpty]
      | .forwardRef nm =>
        rw [faDefaultInner.eq_def]
        simp [faArgs, unwrap_ann, get_origin, get_args, guardEmpty]
      | .litValue v =>
        rw [faDefaultInner.eq_def]
        cases v <;> simp [faArgs, unwrap_ann, get_origin, get_args, guardEmpty]
  exact H (sizeOf A) A (Nat.le_refl _)

theorem filter_not_kd_of_no_kd (m : List MetaVal) (h : m.any isKdMeta = false) :
    m.filter (fun x => !(isKdMeta x)) = m := by
  induction m with
  | nil => rfl
  | cons a r ih =>
    simp only [List.any_cons, Bool.or_eq_false_iff] at h
    simp [List.filter, h.1, ih h.2]

theorem guard_get_origin (A : TypeAnn) :
    get_origin (unwrap_ann (guardEmpty A)).1 = get_origin (unwrap_ann A).1 := by
  unfold guardEmpty
  cases A <;> first
    | rfl
    | (rename_i v; cases v <;> rfl)

/-- `resolve_kwargs` with only `name` / `default` / `extra`-free kwargs, as
in a bare `from_annotation(annotation)` call. -/
theorem resolve_kwargs_bare (A : TypeAnn) (m : List MetaVal) :
    resolve_kwargs A {} m =
      (if m.any isKdMeta then
        (firstKdMeta m, none, [], m.filter (fun x => !(isKdMeta x)))
       else
        ((extract_metadata A "" .empty m []).1, none,
          (extract_metadata A "" .empty m []).2, m)) := by
  unfold resolve_kwargs
  simp [dlookup]

/-- C1: `from_annotation(A)` keeps `A` as `raw`, stores the unwrapped
annotation, the removed wrappers, and the `Annotated` metadata with any
`KwargDefinition`/`DependencyKwarg` entries removed (they are moved into
`kwarg_definition`); the hypothesis excludes the `Empty` sentinel, which is
the marker for "no annotation". -/
theorem C1_from_ann_fields (A : TypeAnn) (h : A ≠ .litValue .empty) :
    (FieldDefinition.from_ann A {}).raw = A ∧
    (FieldDefinition.from_ann A {}).ann = (unwrap_ann A).1 ∧
    (FieldDefinition.from_ann A {}).type_wrappers = (unwrap_ann A).2.2 ∧
    (FieldDefinition.from_ann A {}).metadata =
      (unwrap_ann A).2.1.filter (fun x => !(isKdMeta x)) := by
  have hg := guardEmpty_of_ne A h
  simp only [from_ann_eq, applyKdDefault_raw, applyKdDefault_ann,
    applyKdDefault_type_wrappers, applyKdDefault_metadata,
    raw_mk, ann_mk, type_wrappers_mk, metadata_mk, hg]
  refine ⟨trivial, trivial, trivial, ?_⟩
  rw [resolve_kwargs_bare]
  by_cases hany : (unwrap_ann A).2.1.any isKdMeta
  · simp [hany]
  · simp only [Bool.not_eq_true] at hany
    simp [hany, filter_not_kd_of_no_kd _ hany]

/-- Witness for C1 at `Annotated[int, "meta", ParameterKwarg()]`. -/
def C1A : TypeAnn :=
  .annotated (.cls .intC)
    [.val (.strVal "meta"), .val (.kd (.kwarg .parameterK []))]

theorem C1_from_ann_fields_witness :
    (FieldDefinition.from_ann C1A {}).raw = C1A ∧
    (FieldDefinition.from_ann C1A {}).ann = (unwrap_ann C1A).1 ∧
    (FieldDefinition.from_ann C1A {}).type_wrappers = (unwrap_ann C1A).2.2 ∧
    (FieldDefinition.from_ann C1A {}).metadata =
      (unwrap_ann C1A).2.1.filter (fun x => !(isKdMeta x)) :=
  C1_from_ann_fields C1A (by simp [C1A])

/-- C2: `from_annotation` computes `origin` as `get_origin` of the unwrapped
annotation, `args` as `get_args` of the unwrapped annotation except for
`Callable` (empty), and — when the caller does not supply `inner_types` —
`inner_types` as `from_annotation` of each element of `args`. -/
theorem C2_from_ann_generics (A : TypeAnn) (nm : Option String)
    (df : Option PyVal) (kd0 : Option KD) (ex : Option PyDict) :
    (FieldDefinition.from_ann A ⟨nm, df, none, kd0, ex⟩).origin =
      get_origin (unwrap_ann A).1 ∧
    (FieldDefinition.from_ann A ⟨nm, df, none, kd0, ex⟩).args =
      (if get_origin (unwrap_ann A).1 = some .callableO then []
       else get_args (unwrap_ann A).1) ∧
    (FieldDefinition.from_ann A ⟨nm, df, none, kd0, ex⟩).inner_types =
      ((FieldDefinition.from_ann A ⟨nm, df, none, kd0, ex⟩).args).map
        (fun t => FieldDefinition.from_ann t {}) := by
  refine ⟨?_, ?_, ?_⟩
  · rw [from_ann_eq A ⟨nm, df, none, kd0, ex⟩]
    simp only [applyKdDefault_origin, origin_mk]
    exact guard_get_origin A
  · rw [from_ann_eq A ⟨nm, df, none, kd0, ex⟩]
    simp only [applyKdDefault_args, args_mk]
    exact faArgs_guard A
  · rw [from_ann_eq A ⟨nm, df, none, kd0, ex⟩]
    simp only [applyKdDefault_inner_types, applyKdDefault_args,
      inner_types_mk, args_mk, Option.getD_none]
    rw [faDefaultInner_eq]
    rfl

theorem from_ann_raw (A : TypeAnn) (kw : FAKwargs) :
    (FieldDefinition.from_ann A kw).raw = A := by
  rw [from_ann_eq]
  simp only [applyKdDefault_raw, raw_mk]

theorem from_ann_origin (A : TypeAnn) (kw : FAKwargs) :
    (FieldDefinition.from_ann A kw).origin = get_origin (unwrap_ann A).1 := by
  rw [from_ann_eq]
  simp only [applyKdDefault_origin, origin_mk]
  exact guard_get_origin A

theorem from_ann_args_eq (A : TypeAnn) (kw : FAKwargs) :
    (FieldDefinition.from_ann A kw).args =
      (if get_origin (unwrap_ann A).1 = some .callableO then []
       else get_args (unwrap_ann A).1) := by
  rw [from_ann_eq]
  simp only [applyKdDefault_args, args_mk]
  exact faArgs_guard A

theorem from_ann_name (A : TypeAnn) (kw : FAKwargs) :
    (FieldDefinition.from_ann A kw).name = kw.name.getD "" := by
  rw [from_ann_eq]
  simp only [applyKdDefault_name, name_mk]

theorem from_ann_ann_of_ne (A : TypeAnn) (kw : FAKwargs)
    (h : A ≠ .litValue .empty) :
    (FieldDefinition.from_ann A kw).ann = (unwrap_ann A).1 := by
  rw [from_ann_eq]
  simp only [applyKdDefault_ann, ann_mk, guardEmpty_of_ne A h]

theorem from_ann_type_wrappers_of_ne (A : TypeAnn) (kw : FAKwargs)
    (h : A ≠ .litValue .empty) :
    (FieldDefinition.from_ann A kw).type_wrappers = (unwrap_ann A).2.2 := by
  rw [from_ann_eq]
  simp only [applyKdDefault_type_wrappers, type_wrappers_mk, guardEmpty_of_ne A h]

theorem from_ann_inner_default (A : TypeAnn) (nm : Option String)
    (df : Option PyVal) (kd0 : Option KD) (ex : Option PyDict) :
    (FieldDefinition.from_ann A ⟨nm, df, none, kd0, ex⟩).inner_types =
      (faArgs A).map (fun t => FieldDefinition.from_ann t {}) := by
  rw [from_ann_eq]
  simp only [applyKdDefault_inner_types, inner_types_mk, Option.getD_none]
  exact faDefaultInner_eq A

/-- Restatement of `is_subclass_of` through the field accessors. -/
theorem is_subclass_of_eq (fd : FieldDefinition) (cl : List PyClass) :
    fd.is_subclass_of cl =
      (match fd.origin with
       | some o =>
         if o = .unionO then allSubclassOf fd.inner_types cl
         else origin_is_class_and_subclass o cl
       | none =>
         match fd.ann with
         | .anyStr =>
           is_class_and_subclass (.cls .strC) cl ||
             is_class_and_subclass (.cls .bytesC) cl
         | .anyA => false
         | .typeVar _ => false
         | a => is_class_and_subclass a cl) := by
  cases fd with
  | mk c i => rfl

theorem all_map_eq {A B : Type} (f : A → B) (l : List A) (p : B → Bool) :
    (l.map f).all p = l.all (fun x => p (f x)) := by
  induction l with
  | nil => rfl
  | cons a r ih => simp [ih]

theorem allSubclassOf_eq_all (l : List FieldDefinition) (cl : List PyClass) :
    allSubclassOf l cl = l.all (fun x => x.is_subclass_of cl) := by
  induction l with
  | nil => rfl
  | cons a r ih => simp [allSubclassOf, ih]

/-- C4: `is_union` holds exactly when the unwrapped annotation's origin is a
union type, and `is_optional` exactly when additionally `NoneType` is among
the args. -/
theorem C4_union_optional (A : TypeAnn) :
    ((FieldDefinition.from_ann A {}).is_union = true ↔
      get_origin (unwrap_ann A).1 = some .unionO) ∧
    ((FieldDefinition.from_ann A {}).is_optional = true ↔
      ((FieldDefinition.from_ann A {}).is_union = true ∧
        (get_args (unwrap_ann A).1).any isNoneTypeAnn = true)) := by
  have hu : (FieldDefinition.from_ann A {}).is_union = true ↔
      get_origin (unwrap_ann A).1 = some .unionO := by
    rw [FieldDefinition.is_union, from_ann_origin]
    cases hc : get_origin (unwrap_ann A).1 with
    | none => simp
    | some o => cases o <;> simp
  refine ⟨hu, ?_⟩
  rw [FieldDefinition.is_optional]
  by_cases h : get_origin (unwrap_ann A).1 = some .unionO
  · rw [from_ann_args_eq]
    simp [h, hu]
  · have : (FieldDefinition.from_ann A {}).is_union = false := by
      cases hb : (FieldDefinition.from_ann A {}).is_union
      · rfl
      · exact absurd (hu.mp hb) h
    simp [this]

/-- C5: on a union, `is_subclass_of` (and hence `is_collection`) is the
conjunction over all inner types; `AnyStr` reduces to `str` or `bytes`;
`Any` and bare `TypeVar`s are never subclasses. -/
theorem C5_is_subclass_of (as : List TypeAnn) (cl : List PyClass)
    (nm : String) :
    ((FieldDefinition.from_ann (.generic .unionO as) {}).is_subclass_of cl =
      as.all (fun t => (FieldDefinition.from_ann t {}).is_subclass_of cl)) ∧
    ((FieldDefinition.from_ann (.generic .unionO as) {}).is_collection =
      as.all (fun t =>
        (FieldDefinition.from_ann t {}).is_subclass_of [.collectionC])) ∧
    ((FieldDefinition.from_ann .anyStr {}).is_subclass_of cl =
      (is_class_and_subclass (.cls .strC) cl ||
        is_class_and_subclass (.cls .bytesC) cl)) ∧
    ((FieldDefinition.from_ann .anyA {}).is_subclass_of cl = false) ∧
    ((FieldDefinition.from_ann (.typeVar nm) {}).is_subclass_of cl = false) := by
  have hUnion : ∀ (cl' : List PyClass),
      (FieldDefinition.from_ann (.generic .unionO as) {}).is_subclass_of cl' =
        as.all (fun t => (FieldDefinition.from_ann t {}).is_subclass_of cl') := by
    intro cl'
    rw [is_subclass_of_eq, from_ann_origin,
      show get_origin (unwrap_ann (TypeAnn.generic .unionO as)).1 =
        some GenOrigin.unionO from rfl]
    rw [show (FieldDefinition.from_ann (TypeAnn.generic .unionO as) {}).inner_types =
        (faArgs (TypeAnn.generic .unionO as)).map
          (fun t => FieldDefinition.from_ann t {}) from
      from_ann_inner_default (TypeAnn.generic .unionO as) none none none none]
    rw [allSubclassOf_eq_all]
    rw [show faArgs (TypeAnn.generic .unionO as) = as from rfl]
    simp [all_map_eq]
  refine ⟨hUnion cl, ?_, ?_, ?_, ?_⟩
  · rw [FieldDefinition.is_collection]
    exact hUnion [.collectionC]
  · rw [is_subclass_of_eq, from_ann_origin,
      from_ann_ann_of_ne _ _ (by simp)]
    rfl
  · rw [is_subclass_of_eq, from_ann_origin,
      from_ann_ann_of_ne _ _ (by simp)]
    rfl
  · rw [is_subclass_of_eq, from_ann_origin,
      from_ann_ann_of_ne _ _ (by simp)]
    rfl

/-- C7: `FieldDefinition` is an immutable value of exactly its thirteen
fields: two instances agreeing on all thirteen fields are the same instance,
and every derived property and method is a deterministic function of those
fields (so repeated invocation with the same arguments returns the same
value and the fields are never changed — mutation does not exist in the
embedding, matching the frozen, slotted dataclass). -/
theorem C7_frozen_deterministic (a b : FieldDefinition)
    (h1 : a.raw = b.raw) (h2 : a.ann = b.ann)
    (h3 : a.type_wrappers = b.type_wrappers) (h4 : a.origin = b.origin)
    (h5 : a.args = b.args) (h6 : a.metadata = b.metadata)
    (h7 : a.instantiable_origin = b.instantiable_origin)
    (h8 : a.safe_generic_origin = b.safe_generic_origin)
    (h9 : a.inner_types = b.inner_types) (h10 : a.default = b.default)
    (h11 : a.extra = b.extra) (h12 : a.kwarg_definition = b.kwarg_definition)
    (h13 : a.name = b.name) :
    a = b ∧
    a.is_optional = b.is_optional ∧
    a.is_required = b.is_required ∧
    (∀ cl, a.is_subclass_of cl = b.is_subclass_of cl) ∧
    (∀ cl, a.has_inner_subclass_of cl = b.has_inner_subclass_of cl) ∧
    a.is_union = b.is_union ∧
    a.is_any = b.is_any ∧
    a.has_default = b.has_default ∧
    a.is_collection = b.is_collection := by
  have hab : a = b := by
    cases a with
    | mk ca ia =>
      cases b with
      | mk cb ib =>
        simp only [FieldDefinition.raw, FieldDefinition.ann,
          FieldDefinition.type_wrappers, FieldDefinition.origin,
          FieldDefinition.args, FieldDefinition.metadata,
          FieldDefinition.instantiable_origin,
          FieldDefinition.safe_generic_origin, FieldDefinition.default,
          FieldDefinition.extra, FieldDefinition.kwarg_definition,
          FieldDefinition.name, core_mk, inner_types_mk] at h1 h2 h3 h4 h5 h6 h7 h8 h9 h10 h11 h12 h13
        have hc : ca = cb := by
          cases ca
          cases cb
          simp_all
        rw [hc, h9]
  subst hab
  exact ⟨rfl, rfl, rfl, fun _ => rfl, fun _ => rfl, rfl, rfl, rfl, rfl⟩

theorem C7_frozen_deterministic_witness :
    (FieldDefinition.from_ann (.cls .intC) {}) =
        (FieldDefinition.from_ann (.cls .intC) {}) ∧
    (FieldDefinition.from_ann (.cls .intC) {}).is_optional =
        (FieldDefinition.from_ann (.cls .intC) {}).is_optional ∧
    (FieldDefinition.from_ann (.cls .intC) {}).is_required =
        (FieldDefinition.from_ann (.cls .intC) {}).is_required ∧
    (∀ cl, (FieldDefinition.from_ann (.cls .intC) {}).is_subclass_of cl =
        (FieldDefinition.from_ann (.cls .intC) {}).is_subclass_of cl) ∧
    (∀ cl, (FieldDefinition.from_ann (.cls .intC) {}).has_inner_subclass_of cl =
        (FieldDefinition.from_ann (.cls .intC) {}).has_inner_subclass_of cl) ∧
    (FieldDefinition.from_ann (.cls .intC) {}).is_union =
        (FieldDefinition.from_ann (.cls .intC) {}).is_union ∧
    (FieldDefinition.from_ann (.cls .intC) {}).is_any =
        (FieldDefinition.from_ann (.cls .intC) {}).is_any ∧
    (FieldDefinition.from_ann (.cls .intC) {}).has_default =
        (FieldDefinition.from_ann (.cls .intC) {}).has_default ∧
    (FieldDefinition.from_ann (.cls .intC) {}).is_collection =
        (FieldDefinition.from_ann (.cls .intC) {}).is_collection :=
  C7_frozen_deterministic _ _ rfl rfl rfl rfl rfl rfl rfl rfl rfl rfl rfl rfl rfl

/-- C8: the precedence of `is_required`: `Required` wrapper forces `True`;
then `NotRequired` forces `False`; then an explicitly set (non-`None`)
`required` of a `ParameterKwarg` is returned; otherwise required iff not
optional, not `Any`, and (no default or the default is `None`) — in
particular an explicit default of `None` still yields a required field. -/
theorem C8_is_required_precedence (fd : FieldDefinition) :
    (fd.type_wrappers.contains .requiredW = true → fd.is_required = true) ∧
    (fd.type_wrappers.contains .requiredW = false →
      fd.type_wrappers.contains .notRequiredW = true →
      fd.is_required = false) ∧
    (∀ cs b, fd.type_wrappers.contains .requiredW = false →
      fd.type_wrappers.contains .notRequiredW = false →
      fd.kwarg_definition = some (KD.kwarg .parameterK cs) →
      KD.requiredAttr (KD.kwarg .parameterK cs) = some b →
      fd.is_required = b) ∧
    (fd.type_wrappers.contains .requiredW = false →
      fd.type_wrappers.contains .notRequiredW = false →
      (∀ cs, fd.kwarg_definition = some (KD.kwarg .parameterK cs) →
        KD.requiredAttr (KD.kwarg .parameterK cs) = none) →
      fd.is_required =
        (!fd.is_optional && !fd.is_any &&
          (!fd.has_default || isNoneP fd.default))) ∧
    (fd.type_wrappers = [] → fd.kwarg_definition = none →
      fd.default = .pyNone → fd.is_optional = false → fd.is_any = false →
      fd.is_required = true) := by
  refine ⟨?_, ?_, ?_, ?_, ?_⟩
  · intro h
    have hm : Wrapper.requiredW ∈ fd.type_wrappers := by simpa using h
    simp [FieldDefinition.is_required, hm]
  · intro h1 h2
    have hm1 : Wrapper.requiredW ∉ fd.type_wrappers := by simpa using h1
    have hm2 : Wrapper.notRequiredW ∈ fd.type_wrappers := by simpa using h2
    simp [FieldDefinition.is_required, hm1, hm2]
  · intro cs b h1 h2 h3 h4
    have hm1 : Wrapper.requiredW ∉ fd.type_wrappers := by simpa using h1
    have hm2 : Wrapper.notRequiredW ∉ fd.type_wrappers := by simpa using h2
    simp [FieldDefinition.is_required, hm1, hm2, h3, h4]
  · intro h1 h2 h3
    have hm1 : Wrapper.requiredW ∉ fd.type_wrappers := by simpa using h1
    have hm2 : Wrapper.notRequiredW ∉ fd.type_wrappers := by simpa using h2
    simp only [FieldDefinition.is_required, h1, h2, Bool.false_eq_true,
      if_false]
    cases hk : fd.kwarg_definition with
    | none => rfl
    | some k =>
      cases k with
      | dependency d s => rfl
      | kwarg kind cs =>
        cases kind with
        | bodyK => rfl
        | parameterK => simp [h3 cs hk]
  · intro h1 h2 h3 h4 h5
    simp only [FieldDefinition.is_any] at h5
    simp only [FieldDefinition.is_optional] at h4
    simp [FieldDefinition.is_required, h1, h2, h3, h4, h5,
      FieldDefinition.has_default, FieldDefinition.is_any,
      FieldDefinition.is_optional, isEmptyP, isNoneP, isEllipsisP]

/-- A hand-built required field with an explicit `None` default
(witness for C8). -/
def C8fd : FieldDefinition := .mk
  { raw := .cls .intC
    ann := .cls .intC
    type_wrappers := []
    origin := none
    args := []
    metadata := []
    instantiable_origin := none
    safe_generic_origin := none
    default := .pyNone
    extra := []
    kwarg_definition := none
    name := "x" } []

theorem C8_is_required_precedence_witness : C8fd.is_required = true :=
  (C8_is_required_precedence C8fd).2.2.2.2 rfl rfl rfl rfl rfl

/-- Concrete instances for the hash/eq divergence: same annotation (`int`),
no origin, but different `name`. -/
def C9a : FieldDefinition := .mk
  { raw := .cls .intC, ann := .cls .intC, type_wrappers := [], origin := none,
    args := [], metadata := [], instantiable_origin := none,
    safe_generic_origin := none, default := .empty, extra := [],
    kwarg_definition := none, name := "a" } []

/-- Like `C9a` but named `"b"`. -/
def C9b : FieldDefinition := .mk
  { raw := .cls .intC, ann := .cls .intC, type_wrappers := [], origin := none,
    args := [], metadata := [], instantiable_origin := none,
    safe_generic_origin := none, default := .empty, extra := [],
    kwarg_definition := none, name := "b" } []

/-- C9: `__eq__` compares only `origin` and `inner_types` when `origin` is
truthy, only `annotation` otherwise (so `name`, `raw`, `default`,
`metadata`, `kwarg_definition` and `extra` are ignored); comparison with a
non-`FieldDefinition` is `False`; and two instances that compare equal can
feed different tuples to `__hash__` (which also hashes `name` and `raw`),
hence can have different hashes. -/
theorem C9_eq_ignores_fields :
    (∀ a b : FieldDefinition, a.origin.isSome = true →
      fdEq a b = (decide (a.origin = b.origin) &&
        fdListEq a.inner_types b.inner_types)) ∧
    (∀ a b : FieldDefinition, a.origin = none →
      fdEq a b = annEq a.ann b.ann) ∧
    (∀ a a' b : FieldDefinition, a.origin = a'.origin → a.ann = a'.ann →
      a.inner_types = a'.inner_types → fdEq a b = fdEq a' b) ∧
    (∀ (a : FieldDefinition) (v : PyVal), fdEqAny a (.other v) = false) ∧
    (fdEq C9a C9b = true ∧ hashInput C9a ≠ hashInput C9b) := by
  refine ⟨?_, ?_, ?_, ?_, ?_, ?_⟩
  · intro a b h
    cases a with
    | mk ca ia =>
      cases b with
      | mk cb ib =>
        simp only [FieldDefinition.origin, core_mk] at h
        rw [fdEq]
        simp [h, FieldDefinition.origin, FieldDefinition.inner_types]
  · intro a b h
    cases a with
    | mk ca ia =>
      cases b with
      | mk cb ib =>
        simp only [FieldDefinition.origin, core_mk] at h
        rw [fdEq]
        simp [h, FieldDefinition.ann]
  · intro a a' b h1 h2 h3
    cases a with
    | mk ca ia =>
      cases a' with
      | mk ca' ia' =>
        cases b with
        | mk cb ib =>
          simp only [FieldDefinition.origin, FieldDefinition.ann,
            FieldDefinition.inner_types, core_mk, inner_types_mk] at h1 h2 h3
          rw [fdEq, fdEq, h1, h2, h3]
  · intro a v
    cases a with
    | mk ca ia => rfl
  · rw [C9a, C9b, fdEq]
    simp [annEq]
  · simp [hashInput, C9a, C9b]

theorem C9_eq_ignores_fields_witness :
    fdEq (FieldDefinition.mk
      { raw := .cls .strC, ann := .generic (.cls .listC) [.cls .intC],
        type_wrappers := [], origin := some (.cls .listC),
        args := [.cls .intC], metadata := [], instantiable_origin := none,
        safe_generic_origin := none, default := .empty, extra := [],
        kwarg_definition := none, name := "p" } [])
      (FieldDefinition.mk
      { raw := .cls .bytesC, ann := .generic (.cls .listC) [.cls .intC],
        type_wrappers := [], origin := some (.cls .listC),
        args := [.cls .intC], metadata := [], instantiable_origin := none,
        safe_generic_origin := none, default := .pyNone, extra := [],
        kwarg_definition := none, name := "q" } []) =
      (decide ((some (GenOrigin.cls .listC) : Option GenOrigin) =
        some (GenOrigin.cls .listC)) && fdListEq [] []) :=
  C9_eq_ignores_fields.1 _ _ rfl

theorem dupdate_nil (d : PyDict) : dupdate d [] = d := rfl

theorem dlookup_eq_none_of_not_mem (l : PyDict) (k : String)
    (h : k ∉ l.map Prod.fst) : dlookup l k = none := by
  induction l with
  | nil => rfl
  | cons kv rest ih =>
    obtain ⟨k', v'⟩ := kv
    simp only [List.map_cons, List.mem_cons] at h
    push_neg at h
    simp [dlookup, Ne.symm h.1, ih h.2]

/-- Looking a key up in a None-filtered dict with unique keys. -/
theorem dlookup_filter_values (l : PyDict) (q : PyVal → Bool) (k : String)
    (hnd : (l.map Prod.fst).Nodup) :
    dlookup (l.filter (fun kv => q kv.2)) k =
      (match dlookup l k with
       | some v => if q v then some v else none
       | none => none) := by
  induction l with
  | nil => rfl
  | cons kv rest ih =>
    obtain ⟨k', v'⟩ := kv
    simp only [List.map_cons, List.nodup_cons] at hnd
    by_cases hk : k' = k
    · subst hk
      have hnot : k' ∉ (rest.filter (fun kv => q kv.2)).map Prod.fst := by
        intro hmem
        exact hnd.1 (List.map_subset Prod.fst (List.filter_sublist _).subset hmem)
      by_cases hq : q v'
      · simp [List.filter, hq, dlookup]
      · simp [List.filter, hq, dlookup,
          dlookup_eq_none_of_not_mem _ _ hnot]
    · by_cases hq : q v' <;> simp [List.filter, hq, dlookup, hk, ih hnd.2]

/-- `some v` when `v` is not `None`, else `none` (the effect of the
None-dropping comprehension on one key). -/
def filterNone (v : PyVal) : Option PyVal :=
  if isNoneP v then none else some v

/-- The `examples` entry `_parse_metadata` builds when no `example` was
popped from `extra`. -/
def examplesEntry (value : MetaVal) : PyVal :=
  match (match mgetattr value "examples" with
         | .listVal l => if l.isEmpty then none
           else some (l.map PyVal.exampleVal)
         | _ => none) with
  | some l => .listVal l
  | none => .pyNone

/-- The dict literal `_parse_metadata` builds for a constraint object with
no `extra` attribute and an empty caller `extra`. -/
def C3entries (attrs : PyDict) (isSeq : Bool) : PyDict :=
  [("gt", mgetattr (.obj attrs) "gt"),
   ("ge", mgetattr (.obj attrs) "ge"),
   ("lt", mgetattr (.obj attrs) "lt"),
   ("le", mgetattr (.obj attrs) "le"),
   ("multiple_of", mgetattr (.obj attrs) "multiple_of"),
   ("min_length", if isSeq then .pyNone else mgetattr (.obj attrs) "min_length"),
   ("max_length", if isSeq then .pyNone else mgetattr (.obj attrs) "max_length"),
   ("description", mgetattr (.obj attrs) "description"),
   ("examples", examplesEntry (.obj attrs)),
   ("title", mgetattr (.obj attrs) "title"),
   ("lower_case", mgetattr (.obj attrs) "to_lower"),
   ("upper_case", mgetattr (.obj attrs) "to_upper"),
   ("pattern", mgetattrD (.obj attrs) "regex" (mgetattr (.obj attrs) "pattern")),
   ("min_items", if isSeq then mgetattrD (.obj attrs) "min_items" (mgetattr (.obj attrs) "min_length") else .pyNone),
   ("max_items", if isSeq then mgetattrD (.obj attrs) "max_items" (mgetattr (.obj attrs) "max_length") else .pyNone),
   ("const", .boolVal (!(isNoneP (mgetattr (.obj attrs) "const"))))]

/-- `_parse_metadata` on a constraint object with no `extra` attribute and
an empty caller `extra` is the None-filtered dict literal. -/
theorem parse_metadata_obj_no_extra (attrs : PyDict) (isSeq : Bool)
    (hextra : dlookup attrs "extra" = none) :
    parse_metadata (.obj attrs) isSeq [] =
      ((C3entries attrs isSeq).filter (fun kv => !(isNoneP kv.2)), []) := by
  unfold parse_metadata C3entries examplesEntry
  simp [mgetattr, hextra, dpop, dremove, dupdate, pyTruthy, dlookup]

/-- The constraint dict `_parse_metadata` produces for a constraint
object. -/
def C3d (attrs : PyDict) (isSeq : Bool) : PyDict :=
  (parse_metadata (.obj attrs) isSeq []).1

/-- C3: constraint resolution copies the matching attributes (`gt`, `ge`,
`lt`, `le`, `multiple_of`, `min_length`, `max_length`, `description`,
`examples`, `title`, `to_lower`→`lower_case`, `to_upper`→`upper_case`,
`regex`/`pattern`→`pattern`) into a dict, dropping every key whose value is
`None`; for a non-string sequence container the length bounds are reported
as `min_items`/`max_items` (preferring explicit `min_items`/`max_items`
attributes) and `min_length`/`max_length` are suppressed; and
`_create_metadata_from_type` routes every resolved key either into the
kwarg-definition constructor kwargs (when the key is in `dir(model)`) or
into `extra` (otherwise). Stated for an object without an `extra` attribute
and an empty caller `extra`, isolating attribute copying from dict
splicing. -/
theorem C3_constraint_resolution (attrs : PyDict) (isSeq : Bool)
    (hextra : dlookup attrs "extra" = none) :
    (∀ kv, kv ∈ C3d attrs isSeq → isNoneP kv.2 = false) ∧
    dlookup (C3d attrs isSeq) "gt" = filterNone (mgetattr (.obj attrs) "gt") ∧
    dlookup (C3d attrs isSeq) "ge" = filterNone (mgetattr (.obj attrs) "ge") ∧
    dlookup (C3d attrs isSeq) "lt" = filterNone (mgetattr (.obj attrs) "lt") ∧
    dlookup (C3d attrs isSeq) "le" = filterNone (mgetattr (.obj attrs) "le") ∧
    dlookup (C3d attrs isSeq) "multiple_of" =
      filterNone (mgetattr (.obj attrs) "multiple_of") ∧
    dlookup (C3d attrs isSeq) "description" =
      filterNone (mgetattr (.obj attrs) "description") ∧
    dlookup (C3d attrs isSeq) "title" =
      filterNone (mgetattr (.obj attrs) "title") ∧
    dlookup (C3d attrs isSeq) "examples" =
      filterNone (examplesEntry (.obj attrs)) ∧
    dlookup (C3d attrs isSeq) "lower_case" =
      filterNone (mgetattr (.obj attrs) "to_lower") ∧
    dlookup (C3d attrs isSeq) "upper_case" =
      filterNone (mgetattr (.obj attrs) "to_upper") ∧
    dlookup (C3d attrs isSeq) "pattern" =
      filterNone (mgetattrD (.obj attrs) "regex"
        (mgetattr (.obj attrs) "pattern")) ∧
    (isSeq = false →
      dlookup (C3d attrs isSeq) "min_length" =
        filterNone (mgetattr (.obj attrs) "min_length") ∧
      dlookup (C3d attrs isSeq) "max_length" =
        filterNone (mgetattr (.obj attrs) "max_length") ∧
      dlookup (C3d attrs isSeq) "min_items" = none ∧
      dlookup (C3d attrs isSeq) "max_items" = none) ∧
    (isSeq = true →
      dlookup (C3d attrs isSeq) "min_length" = none ∧
      dlookup (C3d attrs isSeq) "max_length" = none ∧
      dlookup (C3d attrs isSeq) "min_items" =
        filterNone (mgetattrD (.obj attrs) "min_items"
          (mgetattr (.obj attrs) "min_length")) ∧
      dlookup (C3d attrs isSeq) "max_items" =
        filterNone (mgetattrD (.obj attrs) "max_items"
          (mgetattr (.obj attrs) "max_length"))) ∧
    (∀ (metadata : List MetaVal) (model : KwargKind) (ann1 : TypeAnn)
        (extra1 : PyDict) (kv : String × PyVal),
      kv ∈ (traverse_metadata metadata (is_non_string_sequence ann1) extra1).1 →
      (if (dirOf model).contains kv.1 then
        ∃ cs, (create_metadata_from_type metadata model ann1 extra1).1 =
          some (KD.kwarg model cs) ∧ kv ∈ cs
       else kv ∈ (create_metadata_from_type metadata model ann1 extra1).2)) := by
  have hd : C3d attrs isSeq =
      (C3entries attrs isSeq).filter (fun kv => !(isNoneP kv.2)) := by
    unfold C3d
    rw [parse_metadata_obj_no_extra attrs isSeq hextra]
  have hnd : ((C3entries attrs isSeq).map Prod.fst).Nodup := by
    simp [C3entries]
  have hlk : ∀ k, dlookup (C3d attrs isSeq) k =
      (match dlookup (C3entries attrs isSeq) k with
       | some v => if !(isNoneP v) then some v else none
       | none => none) := by
    intro k
    rw [hd]
    exact dlookup_filter_values (C3entries attrs isSeq)
      (fun v => !(isNoneP v)) k hnd
  have hfin : ∀ v : PyVal,
      (if !(isNoneP v) then some v else none) = filterNone v := by
    intro v
    by_cases h : isNoneP v <;> simp [h, filterNone]
  refine ⟨?_, ?_, ?_, ?_, ?_, ?_, ?_, ?_, ?_, ?_, ?_, ?_, ?_, ?_, ?_⟩
  · intro kv hkv
    rw [hd] at hkv
    have := List.mem_filter.mp hkv
    simpa using this.2
  · rw [hlk, show dlookup (C3entries attrs isSeq) "gt" =
      some (mgetattr (.obj attrs) "gt") by simp [C3entries, dlookup]]
    exact hfin _
  · rw [hlk, show dlookup (C3entries attrs isSeq) "ge" =
      some (mgetattr (.obj attrs) "ge") by simp [C3entries, dlookup]]
    exact hfin _
  · rw [hlk, show dlookup (C3entries attrs isSeq) "lt" =
      some (mgetattr (.obj attrs) "lt") by simp [C3entries, dlookup]]
    exact hfin _
  · rw [hlk, show dlookup (C3entries attrs isSeq) "le" =
      some (mgetattr (.obj attrs) "le") by simp [C3entries, dlookup]]
    exact hfin _
  · rw [hlk, show dlookup (C3entries attrs isSeq) "multiple_of" =
      some (mgetattr (.obj attrs) "multiple_of") by simp [C3entries, dlookup]]
    exact hfin _
  · rw [hlk, show dlookup (C3entries attrs isSeq) "description" =
      some (mgetattr (.obj attrs) "description") by simp [C3entries, dlookup]]
    exact hfin _
  · rw [hlk, show dlookup (C3entries attrs isSeq) "title" =
      some (mgetattr (.obj attrs) "title") by simp [C3entries, dlookup]]
    exact hfin _
  · rw [hlk, show dlookup (C3entries attrs isSeq) "examples" =
      some (examplesEntry (.obj attrs)) by simp [C3entries, dlookup]]
    exact hfin _
  · rw [hlk, show dlookup (C3entries attrs isSeq) "lower_case" =
      some (mgetattr (.obj attrs) "to_lower") by simp [C3entries, dlookup]]
    exact hfin _
  · rw [hlk, show dlookup (C3entries attrs isSeq) "upper_case" =
      some (mgetattr (.obj attrs) "to_upper") by simp [C3entries, dlookup]]
    exact hfin _
  · rw [hlk, show dlookup (C3entries attrs isSeq) "pattern" =
      some (mgetattrD (.obj attrs) "regex" (mgetattr (.obj attrs) "pattern"))
      by simp [C3entries, dlookup]]
    exact hfin _
  · intro hs
    subst hs
    refine ⟨?_, ?_, ?_, ?_⟩
    · rw [hlk, show dlookup (C3entries attrs false) "min_length" =
        some (mgetattr (.obj attrs) "min_length")
        by simp [C3entries, dlookup]]
      exact hfin _
    · rw [hlk, show dlookup (C3entries attrs false) "max_length" =
        some (mgetattr (.obj attrs) "max_length")
        by simp [C3entries, dlookup]]
      exact hfin _
    · rw [hlk, show dlookup (C3entries attrs false) "min_items" =
        some .pyNone by simp [C3entries, dlookup]]
      simp [isNoneP]
    · rw [hlk, show dlookup (C3entries attrs false) "max_items" =
        some .pyNone by simp [C3entries, dlookup]]
      simp [isNoneP]
  · intro hs
    subst hs
    refine ⟨?_, ?_, ?_, ?_⟩
    · rw [hlk, show dlookup (C3entries attrs true) "min_length" =
        some .pyNone by simp [C3entries, dlookup]]
      simp [isNoneP]
    · rw [hlk, show dlookup (C3entries attrs true) "max_length" =
        some .pyNone by simp [C3entries, dlookup]]
      simp [isNoneP]
    · rw [hlk, show dlookup (C3entries attrs true) "min_items" =
        some (mgetattrD (.obj attrs) "min_items"
          (mgetattr (.obj attrs) "min_length"))
        by simp [C3entries, dlookup]]
      exact hfin _
    · rw [hlk, show dlookup (C3entries attrs true) "max_items" =
        some (mgetattrD (.obj attrs) "max_items"
          (mgetattr (.obj attrs) "max_length"))
        by simp [C3entries, dlookup]]
      exact hfin _
  · intro metadata model ann1 extra1 kv hkv
    unfold create_metadata_from_type
    by_cases hmem : (dirOf model).contains kv.1
    · rw [if_pos hmem]
      have hin : kv ∈ (traverse_metadata metadata
          (is_non_string_sequence ann1) extra1).1.filter
          (fun kv => (dirOf model).contains kv.1) :=
        List.mem_filter.mpr ⟨hkv, hmem⟩
      have hne : ((traverse_metadata metadata
          (is_non_string_sequence ann1) extra1).1.filter
          (fun kv => (dirOf model).contains kv.1)).isEmpty = false := by
        cases hc : (traverse_metadata metadata
          (is_non_string_sequence ann1) extra1).1.filter
          (fun kv => (dirOf model).contains kv.1) with
        | nil => rw [hc] at hin; cases hin
        | cons x xs => rfl
      refine ⟨_, ?_, hin⟩
      simp only [hne, Bool.false_eq_true, if_false]
    · rw [if_neg hmem]
      refine List.mem_filter.mpr ⟨hkv, ?_⟩
      simpa using hmem

/-- A concrete constraint object for the C3 witness. -/
def C3attrs : PyDict := [("gt", .intVal 1), ("min_length", .intVal 2)]

theorem C3_constraint_resolution_witness :
    dlookup (C3d C3attrs false) "gt" =
      filterNone (mgetattr (.obj C3attrs) "gt") ∧
    dlookup (C3d C3attrs false) "min_length" =
      filterNone (mgetattr (.obj C3attrs) "min_length") ∧
    dlookup (C3d C3attrs false) "min_items" = none := by
  have h := C3_constraint_resolution C3attrs false (by simp [C3attrs, dlookup])
  exact ⟨h.2.1, (h.2.2.2.2.2.2.2.2.2.2.2.2.1 rfl).1,
    (h.2.2.2.2.2.2.2.2.2.2.2.2.1 rfl).2.2.1⟩

/-- C6 counterexample: an `annotated_types.Predicate` whose `func` is none
of the four recognised ones does NOT contribute an empty constraint set:
`_unpack_predicate` returns `{}` (falsy), so the metadata loop falls through
to `_parse_metadata`, whose dict always contains
`"const": getattr(value, "const", None) is not None`, i.e. `False` here —
and `False` is not `None`, so it survives the None-dropping comprehension. -/
theorem C6_counterexample :
    (traverse_metadata [MetaVal.predicate (.other "isalnum")] false []).1 =
      [("const", .boolVal false)] ∧
    (traverse_metadata [MetaVal.predicate (.other "isalnum")] false []).1 ≠
      [] := by
  constructor
  · simp [traverse_metadata, traverse_go, traverse_step, unpack_predicate,
      parse_metadata, mgetattr, mgetattrD, dlookup, dpop, dremove, dupdate,
      dinsert, pyTruthy, isNoneP]
  · simp [traverse_metadata, traverse_go, traverse_step, unpack_predicate,
      parse_metadata, mgetattr, mgetattrD, dlookup, dpop, dremove, dupdate,
      dinsert, pyTruthy, isNoneP]

/-- C6 (amended): the four recognised predicates contribute exactly their
listed constraint (`str.islower` → `lower_case: True`, `str.isupper` →
`upper_case: True`, `str.isascii` → `pattern: "[[:ascii:]]"`, `str.isdigit`
→ `pattern: "[[:digit:]]"`); any other Predicate — and likewise every
Predicate when `annotated_types` cannot be imported — makes
`_unpack_predicate` return the empty dict, upon which the loop falls
through to generic attribute parsing, contributing exactly the single entry
`const: False` (a Predicate has none of the constraint attributes). -/
theorem C6_predicates_amended (f : PredFunc) (isSeq : Bool) :
    unpack_predicate (.predicate f) =
      (match f with
       | .islower => [("lower_case", .boolVal true)]
       | .isupper => [("upper_case", .boolVal true)]
       | .isascii => [("pattern", .strVal "[[:ascii:]]")]
       | .isdigit => [("pattern", .strVal "[[:digit:]]")]
       | .other _ => []) ∧
    (traverse_metadata [MetaVal.predicate f] isSeq []).1 =
      (match f with
       | .islower => [("lower_case", .boolVal true)]
       | .isupper => [("upper_case", .boolVal true)]
       | .isascii => [("pattern", .strVal "[[:ascii:]]")]
       | .isdigit => [("pattern", .strVal "[[:digit:]]")]
       | .other _ => [("const", .boolVal false)]) := by
  constructor
  · cases f <;> rfl
  · cases f <;> cases isSeq <;>
      simp [traverse_metadata, traverse_go, traverse_step, unpack_predicate,
        parse_metadata, mgetattr, mgetattrD, dlookup, dpop, dremove, dupdate,
        dinsert, pyTruthy, isNoneP]

/-- With only `name`/`default` kwargs and a default that is not a kwarg
definition, the resolution passes the default through unchanged. -/
theorem resolve_kwargs_snd_default (A : TypeAnn) (nm : Option String)
    (df : Option PyVal) (m : List MetaVal)
    (hdf : ∀ k, df ≠ some (.kd k)) :
    (resolve_kwargs A ⟨nm, df, none, none, none⟩ m).2.1 = df := by
  cases df with
  | none =>
    by_cases h : m.any isKdMeta <;> simp [resolve_kwargs, h, dlookup]
  | some v =>
    cases v <;> first
      | exact absurd rfl (hdf _)
      | (by_cases h : m.any isKdMeta <;> simp [resolve_kwargs, h, dlookup])

/-- A plain (non-sentinel, non-kwarg-definition) default value survives
`from_annotation` unchanged. -/
theorem from_ann_default_plain (A : TypeAnn) (nm : Option String) (v : PyVal)
    (hkd : isKdVal v = false) (he : isEmptyP v = false)
    (hel : isEllipsisP v = false) :
    (FieldDefinition.from_ann A ⟨nm, some v, none, none, none⟩).default = v := by
  have hres : (resolve_kwargs A ⟨nm, some v, none, none, none⟩
      (unwrap_ann (guardEmpty A)).2.1).2.1 = some v :=
    resolve_kwargs_snd_default A nm (some v) _
      (by intro k hk; rw [Option.some_inj] at hk; subst hk; simp [isKdVal] at hkd)
  rw [from_ann_eq, applyKdDefault_default]
  simp only [kwarg_definition_mk, default_mk, FieldDefinition.has_default,
    default_mk, hres, Option.getD_some]
  cases (resolve_kwargs A ⟨nm, some v, none, none, none⟩
      (unwrap_ann (guardEmpty A)).2.1).1 <;> simp [he, hel]

/-- With a missing default or the `Empty` sentinel as default, the final
default is the resolved kwarg definition's default (or `Empty`). -/
theorem from_ann_default_formula (A : TypeAnn) (nm : Option String)
    (df : Option PyVal) (hdf : df = none ∨ df = some .empty) :
    (FieldDefinition.from_ann A ⟨nm, df, none, none, none⟩).default =
      (((FieldDefinition.from_ann A
        ⟨nm, df, none, none, none⟩).kwarg_definition).map KD.defaultVal).getD
        .empty := by
  have hres : (resolve_kwargs A ⟨nm, df, none, none, none⟩
      (unwrap_ann (guardEmpty A)).2.1).2.1 = df := by
    refine resolve_kwargs_snd_default A nm df _ ?_
    intro k hk
    cases hdf with
    | inl h => subst h; cases hk
    | inr h => subst h; cases hk
  rw [from_ann_eq, applyKdDefault_default, applyKdDefault_kwarg_definition]
  simp only [kwarg_definition_mk, default_mk, FieldDefinition.has_default,
    hres]
  have hempty : df.getD PyVal.empty = .empty := by
    cases hdf with
    | inl h => subst h; rfl
    | inr h => subst h; rfl
  rw [hempty]
  cases (resolve_kwargs A ⟨nm, df, none, none, none⟩
      (unwrap_ann (guardEmpty A)).2.1).1 <;> simp [isEmptyP]

/-- A kwarg definition passed as default is popped into
`kwarg_definition`, and the final default is its own default. -/
theorem from_ann_default_of_kd (A : TypeAnn) (nm : Option String) (k : KD) :
    (FieldDefinition.from_ann A ⟨nm, some (.kd k), none, none, none⟩).default =
      KD.defaultVal k ∧
    (FieldDefinition.from_ann A
      ⟨nm, some (.kd k), none, none, none⟩).kwarg_definition = some k := by
  have hres : resolve_kwargs A ⟨nm, some (.kd k), none, none, none⟩
      (unwrap_ann (guardEmpty A)).2.1 =
      (some k, none, [], (unwrap_ann (guardEmpty A)).2.1) := rfl
  rw [from_ann_eq, applyKdDefault_default, applyKdDefault_kwarg_definition]
  simp [hres, FieldDefinition.has_default, isEmptyP]

/-- C10 counterexample: a parameter with an explicit default of `None` does
NOT produce a field whose default is `None`: `from_kwarg`'s comprehension
drops `None`-valued kwargs, so the field's default is `Empty`. -/
theorem C10_counterexample :
    (FieldDefinition.from_parameter ⟨"x", some .pyNone⟩
      [("x", .cls .intC)]).map FieldDefinition.default = .ok .empty ∧
    (FieldDefinition.from_parameter ⟨"x", some .pyNone⟩
      [("x", .cls .intC)]).map FieldDefinition.default ≠ .ok .pyNone := by
  have hfp : FieldDefinition.from_parameter ⟨"x", some .pyNone⟩
      [("x", .cls .intC)] =
      .ok (FieldDefinition.from_ann (.cls .intC)
        ⟨some "x", none, none, none, none⟩) := by
    simp [FieldDefinition.from_parameter, lookupHint,
      FieldDefinition.from_kwarg, isNoneP]
  have hkd : (FieldDefinition.from_ann (.cls .intC)
      ⟨some "x", none, none, none, none⟩).kwarg_definition = none := by
    rw [from_ann_eq, applyKdDefault_kwarg_definition]
    simp [resolve_kwargs, unwrap_ann, extract_metadata, rawArgsFirstKd,
      dlookup, isKdMeta]
  have hdef : (FieldDefinition.from_ann (.cls .intC)
      ⟨some "x", none, none, none, none⟩).default = .empty := by
    have h := from_ann_default_formula (.cls .intC) (some "x") none
      (Or.inl rfl)
    rw [hkd] at h
    exact h
  rw [hfp]
  constructor
  · simp [Except.map, hdef]
  · simp [Except.map, hdef]

/-- C10 (amended): `from_parameter` raises `ImproperlyConfiguredException`
in exactly two cases — no type hint for the parameter's name, and a `state`
parameter whose class annotation is not an `ImmutableState` subclass; a
`state` parameter with a non-class annotation instead surfaces the
`TypeError` that `issubclass` raises. In every other case it returns a
field named after the parameter; its default is `parameter.default`
whenever that is a plain value (not `Signature.empty`, `None`, `Empty`,
`Ellipsis`, or a kwarg definition); when `parameter.default` is
`Signature.empty`, `None` or a kwarg definition, the field's default is the
resolved kwarg definition's default, or `Empty` when none is resolved. -/
theorem C10_from_parameter_amended (p : Parameter)
    (hints : List (String × TypeAnn)) :
    ((∃ s, FieldDefinition.from_parameter p hints =
        .error (.improperlyConfigured s)) ↔
      (lookupHint hints p.name = none ∨
        (p.name = "state" ∧ ∃ c, lookupHint hints p.name = some (.cls c) ∧
          subclassB c .immutableStateC = false))) ∧
    ((FieldDefinition.from_parameter p hints = .error .typeError) ↔
      (p.name = "state" ∧ ∃ ann1, lookupHint hints p.name = some ann1 ∧
        (∀ c, ann1 ≠ .cls c))) ∧
    (∀ fd, FieldDefinition.from_parameter p hints = .ok fd →
      fd.name = p.name ∧
      (∀ v, p.default = some v → isKdVal v = false → isNoneP v = false →
        isEmptyP v = false → isEllipsisP v = false → fd.default = v) ∧
      ((p.default = none ∨ p.default = some .pyNone ∨
          (∃ k, p.default = some (.kd k))) →
        fd.default =
          ((fd.kwarg_definition).map KD.defaultVal).getD .empty)) := by
  have hok : ∀ ann1, (∀ fd,
      FieldDefinition.from_kwarg ann1 p.name ((p.default).getD .empty)
        none none none = fd →
      fd.name = p.name ∧
      (∀ v, p.default = some v → isKdVal v = false → isNoneP v = false →
        isEmptyP v = false → isEllipsisP v = false → fd.default = v) ∧
      ((p.default = none ∨ p.default = some .pyNone ∨
          (∃ k, p.default = some (.kd k))) →
        fd.default =
          ((fd.kwarg_definition).map KD.defaultVal).getD .empty)) := by
    intro ann1 fd hfd
    subst hfd
    unfold FieldDefinition.from_kwarg
    refine ⟨?_, ?_, ?_⟩
    · rw [from_ann_name]
      rfl
    · intro v hv hkd hn he hel
      rw [hv]
      have hgd : (some v).getD PyVal.empty = v := rfl
      rw [hgd, show (if isNoneP v then (none : Option PyVal) else some v) =
        some v by simp [hn]]
      exact from_ann_default_plain ann1 (some p.name) v hkd he hel
    · intro hsent
      rcases hsent with h | h | ⟨k, h⟩
      · rw [h]
        exact from_ann_default_formula ann1 (some p.name) (some .empty)
          (Or.inr rfl)
      · rw [h]
        simp only [Option.getD_some, isNoneP, if_true]
        exact from_ann_default_formula ann1 (some p.name) none (Or.inl rfl)
      · rw [h]
        simp only [Option.getD_some]
        rw [show (if isNoneP (PyVal.kd k) then (none : Option PyVal)
          else some (PyVal.kd k)) = some (PyVal.kd k) from rfl]
        have hx := from_ann_default_of_kd ann1 (some p.name) k
        rw [hx.1, hx.2]
        rfl
  cases hl : lookupHint hints p.name with
  | none =>
    refine ⟨?_, ?_, ?_⟩
    · simp [FieldDefinition.from_parameter, hl]
    · simp [FieldDefinition.from_parameter, hl]
    · intro fd hfd
      simp [FieldDefinition.from_parameter, hl] at hfd
  | some ann1 =>
    by_cases hn : p.name = "state"
    · rw [hn] at hl
      cases hann : ann1 with
      | cls c =>
        by_cases hs : subclassB c .immutableStateC
        · refine ⟨?_, ?_, ?_⟩
          · simp [FieldDefinition.from_parameter, hn, hl, hann,
              builtin_issubclass, hs]
          · simp [FieldDefinition.from_parameter, hn, hl, hann,
              builtin_issubclass, hs]
          · intro fd hfd
            simp only [FieldDefinition.from_parameter, hn, hl, hann,
              builtin_issubclass, hs, if_true] at hfd
            simp only [Except.ok.injEq] at hfd
            exact hok (.cls c) fd (by rw [hn]; exact hfd)
        · refine ⟨?_, ?_, ?_⟩
          · simp [FieldDefinition.from_parameter, hn, hl, hann,
              builtin_issubclass, hs]
          · simp [FieldDefinition.from_parameter, hn, hl, hann,
              builtin_issubclass, hs]
          · intro fd hfd
            simp [FieldDefinition.from_parameter, hn, hl, hann,
              builtin_issubclass, hs] at hfd
      | _ =>
        refine ⟨?_, ?_, ?_⟩
        · simp [FieldDefinition.from_parameter, hn, hl, hann,
            builtin_issubclass]
        · simp [FieldDefinition.from_parameter, hn, hl, hann,
            builtin_issubclass]
        · intro fd hfd
          simp [FieldDefinition.from_parameter, hn, hl, hann,
            builtin_issubclass] at hfd
    · refine ⟨?_, ?_, ?_⟩
      · simp [FieldDefinition.from_parameter, hl, hn]
      · simp [FieldDefinition.from_parameter, hl, hn]
      · intro fd hfd
        simp only [FieldDefinition.from_parameter, hl, hn, if_false] at hfd
        simp only [Except.ok.injEq] at hfd
        exact hok ann1 fd hfd

theorem C10_from_parameter_amended_witness :
    (FieldDefinition.from_kwarg (.cls .intC) "y" (.intVal 5)
      none none none).name = "y" ∧
    (FieldDefinition.from_kwarg (.cls .intC) "y" (.intVal 5)
      none none none).default = .intVal 5 := by
  have h := (C10_from_parameter_amended ⟨"y", some (.intVal 5)⟩
      [("y", .cls .intC)]).2.2
    (FieldDefinition.from_kwarg (.cls .intC) "y" (.intVal 5) none none none)
    (by simp [FieldDefinition.from_parameter, lookupHint])
  exact ⟨h.1, h.2.1 (.intVal 5) rfl rfl rfl rfl rfl⟩
